import Mathlib

set_option autoImplicit false

/-!
Shallow embedding of the hyperparameter extraction / explanation backend
(`hyperexplainer/backend/hyperparams.py` and `hyperexplainer/backend/app.py`).

Python strings are modelled as `List Char`, Python numbers as `ℤ` / `ℚ`,
Python dicts as insertion-ordered association lists, and the external
text-generation call as an oracle argument.  All definitions are executable.
-/

/-- Python strings, modelled as lists of characters. -/
abbrev Str := List Char

/-- The single-quote character `'`. -/
def squo : Char := Char.ofNat 39

/-- The left curly brace character. -/
def lb : Char := Char.ofNat 123

/-- The right curly brace character. -/
def rb : Char := Char.ofNat 125

/-- Python regex class `\w` (ASCII range): letters, digits, underscore. -/
def isWordChar (c : Char) : Bool := c.isAlphanum || c = '_'

/-- Python regex class `\s` (ASCII range). -/
def isSpaceChar (c : Char) : Bool :=
  c = ' ' || c = '\t' || c = '\n' || c = '\r' || c = '\x0b' || c = '\x0c'

/-- Python regex class `[0-9.]`. -/
def isNumDotChar (c : Char) : Bool := c.isDigit || c = '.'

/-- ASCII lowercasing, modelling Python `str.lower()`. -/
def lowerStr (s : Str) : Str := s.map Char.toLower

/-- Does `l` start with `p`?  Models Python `str.startswith`. -/
def startsWithSub : Str → Str → Bool
  | _, [] => true
  | [], _ :: _ => false
  | c :: l, d :: p => c = d && startsWithSub l p

/-- Is `p` a contiguous substring of `l`?  Models Python `in` on strings. -/
def containsSub : Str → Str → Bool
  | [], p => startsWithSub [] p
  | c :: r, p => startsWithSub (c :: r) p || containsSub r p

/-- Index of the first occurrence of `p` in `l`, if any. -/
def findSubIdx : Str → Str → Option Nat
  | [], p => if startsWithSub [] p then some 0 else none
  | c :: r, p =>
    if startsWithSub (c :: r) p then some 0 else (findSubIdx r p).map (· + 1)

/-- Python `str.find(p, k)`: first index of `p` at or after `k`, else `-1`. -/
def pyFind (l p : Str) (k : Nat) : Int :=
  match findSubIdx (l.drop k) p with
  | some i => ((i + k : Nat) : Int)
  | none => -1

/-- Python slicing `l[a:b]` with negative-index semantics. -/
def pySlice (l : Str) (a b : Int) : Str :=
  let n : Int := l.length
  let a' := if a < 0 then max (n + a) 0 else min a n
  let b' := if b < 0 then max (n + b) 0 else min b n
  (l.drop a'.toNat).take (b' - a').toNat

/-- Python `str.strip()` (ASCII whitespace). -/
def pyStrip (s : Str) : Str :=
  ((s.dropWhile isSpaceChar).reverse.dropWhile isSpaceChar).reverse

/-- Python `str.replace(c, d)` for single characters. -/
def replaceChar (s : Str) (c d : Char) : Str :=
  s.map (fun x => if x = c then d else x)

/-- Insertion-ordered dict update: Python `d[k] = v`. -/
def dictSet {α : Type} : List (Str × α) → Str → α → List (Str × α)
  | [], k, v => [(k, v)]
  | (k', v') :: d, k, v =>
    if k' = k then (k, v) :: d else (k', v') :: dictSet d k v

/-- Dict lookup: Python `d.get(k)` / `k in d`. -/
def dictGet? {α : Type} : List (Str × α) → Str → Option α
  | [], _ => none
  | (k', v) :: d, k => if k' = k then some v else dictGet? d k

/-- Numeric value of a digit string (digits assumed). -/
def natOfDigits (ds : Str) : Nat :=
  ds.foldl (fun a c => a * 10 + (c.toNat - 48)) 0

/-- Python `int(s)` on a decimal literal, `none` when it raises `ValueError`. -/
def pyInt? (s : Str) : Option ℤ :=
  match s with
  | '-' :: ds =>
    if ds ≠ [] ∧ ds.all Char.isDigit then some (-(natOfDigits ds : ℤ)) else none
  | '+' :: ds =>
    if ds ≠ [] ∧ ds.all Char.isDigit then some ((natOfDigits ds : ℤ)) else none
  | ds =>
    if ds ≠ [] ∧ ds.all Char.isDigit then some ((natOfDigits ds : ℤ)) else none

/-- Mantissa-and-exponent part of Python `float(s)`; see `pyFloat?`. -/
def pyFloatBody (s : Str) : Option ℚ :=
  let (ip, r1) := s.span Char.isDigit
  let (fp, r2) :=
    match r1 with
    | '.' :: r => r.span Char.isDigit
    | _ => ([], r1)
  if ip = [] ∧ fp = [] then none
  else
    let mant : ℚ := (natOfDigits ip : ℚ) + (natOfDigits fp : ℚ) / (10 : ℚ) ^ fp.length
    let rest := match r1 with | '.' :: _ => r2 | _ => r1
    match rest with
    | [] => some mant
    | 'e' :: r3 =>
      match r3 with
      | '-' :: ds => if ds ≠ [] ∧ ds.all Char.isDigit then some (mant / (10 : ℚ) ^ natOfDigits ds) else none
      | '+' :: ds => if ds ≠ [] ∧ ds.all Char.isDigit then some (mant * (10 : ℚ) ^ natOfDigits ds) else none
      | ds => if ds ≠ [] ∧ ds.all Char.isDigit then some (mant * (10 : ℚ) ^ natOfDigits ds) else none
    | 'E' :: r3 =>
      match r3 with
      | '-' :: ds => if ds ≠ [] ∧ ds.all Char.isDigit then some (mant / (10 : ℚ) ^ natOfDigits ds) else none
      | '+' :: ds => if ds ≠ [] ∧ ds.all Char.isDigit then some (mant * (10 : ℚ) ^ natOfDigits ds) else none
      | ds => if ds ≠ [] ∧ ds.all Char.isDigit then some (mant * (10 : ℚ) ^ natOfDigits ds) else none
    | _ => none

/-- Python `float(s)` on a decimal literal, `none` when it raises `ValueError`. -/
def pyFloat? (s : Str) : Option ℚ :=
  match s with
  | '-' :: r => (pyFloatBody r).map (fun q => -q)
  | '+' :: r => pyFloatBody r
  | r => pyFloatBody r

/-- A Python value as produced by the extraction functions. -/
inductive PyVal where
  | int (n : ℤ)
  | float (q : ℚ)
  | bool (b : Bool)
  | str (s : Str)
deriving DecidableEq, Repr

/-! ### `extract_hyperparameters_naive` (hyperparams.py lines 73–104)

The regex `(\w+)\s*=\s*([0-9.]+|'[^']*'|\"[^\"]*\"|True|False)` is embedded
directly: greedy `\w+`, then `\s*=\s*`, then the value alternation in order.
`re.findall` scans left to right, restarting one character later on failure. -/

/-- The value alternation `[0-9.]+|'[^']*'|"[^"]*"|True|False`, returning the
matched text (quotes included, as in the regex group). -/
def naiveValueAlt (l : Str) : Option Str :=
  let (num, _) := l.span isNumDotChar
  if num ≠ [] then some num
  else
    match l with
    | c :: rest =>
      if c = squo then
        let (body, r) := rest.span (fun x => !(x = squo))
        match r with
        | _ :: _ => some (squo :: body ++ [squo])
        | [] => none
      else if c = '"' then
        let (body, r) := rest.span (fun x => !(x = '"'))
        match r with
        | _ :: _ => some ('"' :: body ++ ['"'])
        | [] => none
      else if startsWithSub (c :: rest) ("True".data) then some ("True".data)
      else if startsWithSub (c :: rest) ("False".data) then some ("False".data)
      else none
    | [] => none

/-- One attempted match of the naive-extraction regex at the head of `l`:
returns the two capture groups and the total length matched. -/
def matchNaiveAt (l : Str) : Option (Str × Str × Nat) :=
  let (name, r1) := l.span isWordChar
  if name = [] then none
  else
    let (ws1, r2) := r1.span isSpaceChar
    match r2 with
    | c :: r3 =>
      if c = '=' then
        let (ws2, r4) := r3.span isSpaceChar
        match naiveValueAlt r4 with
        | some v =>
          some (name, v, name.length + ws1.length + 1 + ws2.length + v.length)
        | none => none
      else none
    | [] => none

/-- The `re.findall` scan for the naive-extraction regex (fuel-indexed). -/
def scanNaive : Nat → Str → List (Str × Str)
  | 0, _ => []
  | _ + 1, [] => []
  | f + 1, c :: rest =>
    match matchNaiveAt (c :: rest) with
    | some (n, v, len) => (n, v) :: scanNaive f ((c :: rest).drop len)
    | none => scanNaive f rest

/-- All matches of the naive-extraction regex in `code`. -/
def naiveMatches (code : Str) : List (Str × Str) :=
  scanNaive code.length code

/-- The per-match value conversion in `extract_hyperparameters_naive`
(lines 84–101): booleans, quote-stripped strings, then `float`/`int` by
decimal shape, falling back to the raw string on `ValueError`. -/
def coerceNaive (v : Str) : PyVal :=
  if lowerStr v = "true".data then .bool true
  else if lowerStr v = "false".data then .bool false
  else if startsWithSub v [squo] || startsWithSub v ['"'] then
    .str ((v.drop 1).dropLast)
  else if '.' ∈ v then
    match pyFloat? v with
    | some q => .float q
    | none => .str v
  else
    match pyInt? v with
    | some n => .int n
    | none => .str v

/-- `extract_hyperparameters_naive`: regex scan, then dict build in match
order (later assignments to the same name overwrite earlier ones). -/
def extractHyperparametersNaive (code : Str) : List (Str × PyVal) :=
  (naiveMatches code).foldl (fun d m => dictSet d m.1 (coerceNaive m.2)) []

/-! ### JSON values and `json.loads`

A strict recursive-descent reading of the JSON grammar as accepted by
Python's `json.loads` (double-quoted strings, no trailing commas, no extra
data).  Python ints and floats are both modelled as `ℚ`; objects are
insertion-ordered dicts in which a duplicated key keeps the last value,
as `json.loads` does. -/

/-- A parsed JSON value. -/
inductive Json where
  | null
  | bool (b : Bool)
  | num (q : ℚ)
  | str (s : Str)
  | arr (elems : List Json)
  | obj (fields : List (Str × Json))
deriving Repr

/-- JSON insignificant whitespace. -/
def isJsonWs (c : Char) : Bool := c = ' ' || c = '\t' || c = '\n' || c = '\r'

/-- Skip JSON whitespace. -/
def skipWs (l : Str) : Str := l.dropWhile isJsonWs

/-- Hex digit value. -/
def hexVal? (c : Char) : Option Nat :=
  if c.isDigit then some (c.toNat - 48)
  else if 'a' ≤ c && c ≤ 'f' then some (c.toNat - 87)
  else if 'A' ≤ c && c ≤ 'F' then some (c.toNat - 55)
  else none

/-- Body of a JSON string literal after the opening quote: returns the
decoded characters and the remainder after the closing quote.  Control
characters are rejected (strict mode), standard escapes are decoded. -/
def strBody : Str → Option (Str × Str)
  | [] => none
  | c :: r =>
    if c = '"' then some ([], r)
    else if c = '\\' then
      match r with
      | [] => none
      | e :: r2 =>
        if e = '"' then (strBody r2).map (fun p => ('"' :: p.1, p.2))
        else if e = '\\' then (strBody r2).map (fun p => ('\\' :: p.1, p.2))
        else if e = '/' then (strBody r2).map (fun p => ('/' :: p.1, p.2))
        else if e = 'b' then (strBody r2).map (fun p => ('\x08' :: p.1, p.2))
        else if e = 'f' then (strBody r2).map (fun p => ('\x0c' :: p.1, p.2))
        else if e = 'n' then (strBody r2).map (fun p => ('\n' :: p.1, p.2))
        else if e = 'r' then (strBody r2).map (fun p => ('\r' :: p.1, p.2))
        else if e = 't' then (strBody r2).map (fun p => ('\t' :: p.1, p.2))
        else if e = 'u' then
          match r2 with
          | h1 :: h2 :: h3 :: h4 :: r3 =>
            match hexVal? h1, hexVal? h2, hexVal? h3, hexVal? h4 with
            | some a, some b, some c', some d =>
              (strBody r3).map
                (fun p => (Char.ofNat (((a * 16 + b) * 16 + c') * 16 + d) :: p.1, p.2))
            | _, _, _, _ => none
          | _ => none
        else none
    else if c.toNat < 32 then none
    else (strBody r).map (fun p => (c :: p.1, p.2))

/-- Exponent part with mandatory digits, after the `e`/`E` marker. -/
def parseExpSigned (q : ℚ) (l : Str) : Option (ℚ × Str) :=
  match l with
  | '-' :: r =>
    let (ds, r2) := r.span Char.isDigit
    if ds = [] then none else some (q / (10 : ℚ) ^ natOfDigits ds, r2)
  | '+' :: r =>
    let (ds, r2) := r.span Char.isDigit
    if ds = [] then none else some (q * (10 : ℚ) ^ natOfDigits ds, r2)
  | r =>
    let (ds, r2) := r.span Char.isDigit
    if ds = [] then none else some (q * (10 : ℚ) ^ natOfDigits ds, r2)

/-- Optional exponent part of a JSON number. -/
def parseExp (q : ℚ) (l : Str) : Option (ℚ × Str) :=
  match l with
  | 'e' :: r => parseExpSigned q r
  | 'E' :: r => parseExpSigned q r
  | _ => some (q, l)

/-- A JSON number (strict grammar: no leading `+`, no leading zeros,
digits required around the decimal point). -/
def parseNumber (l : Str) : Option (ℚ × Str) :=
  let signed : Bool × Str := match l with | '-' :: r => (true, r) | _ => (false, l)
  match signed.2 with
  | c :: r =>
    if c.isDigit then
      let (ds, r2) := if c = '0' then ([c], r) else (c :: r).span Char.isDigit
      let ipart : ℚ := (natOfDigits ds : ℚ)
      let cont : Option (ℚ × Str) :=
        match r2 with
        | '.' :: r3 =>
          let (fs, r4) := r3.span Char.isDigit
          if fs = [] then none
          else parseExp (ipart + (natOfDigits fs : ℚ) / (10 : ℚ) ^ fs.length) r4
        | _ => parseExp ipart r2
      cont.map (fun p => (if signed.1 then -p.1 else p.1, p.2))
    else none
  | [] => none

mutual

/-- A JSON value (fuel-indexed recursive descent). -/
def parseVal : Nat → Str → Option (Json × Str)
  | 0, _ => none
  | f + 1, l =>
    match skipWs l with
    | [] => none
    | c :: r =>
      if c = lb then
        match skipWs r with
        | d :: r2 => if d = rb then some (.obj [], r2) else parseFields f [] (d :: r2)
        | [] => none
      else if c = '[' then
        match skipWs r with
        | d :: r2 => if d = ']' then some (.arr [], r2) else parseElems f [] (d :: r2)
        | [] => none
      else if c = '"' then (strBody r).map (fun p => (.str p.1, p.2))
      else if c = 't' then
        if startsWithSub r ("rue".data) then some (.bool true, r.drop 3) else none
      else if c = 'f' then
        if startsWithSub r ("alse".data) then some (.bool false, r.drop 4) else none
      else if c = 'n' then
        if startsWithSub r ("ull".data) then some (.null, r.drop 3) else none
      else (parseNumber (c :: r)).map (fun p => (Json.num p.1, p.2))

/-- The members of a JSON object after the opening brace. -/
def parseFields : Nat → List (Str × Json) → Str → Option (Json × Str)
  | 0, _, _ => none
  | f + 1, acc, l =>
    match skipWs l with
    | c :: r =>
      if c = '"' then
        match strBody r with
        | some (k, r2) =>
          match skipWs r2 with
          | ':' :: r3 =>
            match parseVal f r3 with
            | some (v, r4) =>
              match skipWs r4 with
              | ',' :: r5 => parseFields f (dictSet acc k v) r5
              | d :: r5 => if d = rb then some (.obj (dictSet acc k v), r5) else none
              | [] => none
            | none => none
          | _ => none
        | none => none
      else none
    | [] => none

/-- The elements of a JSON array after the opening bracket. -/
def parseElems : Nat → List Json → Str → Option (Json × Str)
  | 0, _, _ => none
  | f + 1, acc, l =>
    match parseVal f l with
    | some (v, r) =>
      match skipWs r with
      | ',' :: r2 => parseElems f (acc ++ [v]) r2
      | c :: r2 => if c = ']' then some (.arr (acc ++ [v]), r2) else none
      | [] => none
    | none => none

end

/-- Python `json.loads`: parse one JSON document, rejecting trailing
non-whitespace ("Extra data").  `none` models a raised `JSONDecodeError`. -/
def jsonLoads (s : Str) : Option Json :=
  match parseVal (s.length + 1) s with
  | some (j, rest) => if skipWs rest = [] then some j else none
  | none => none

/-! ### Response cleanup

Two distinct cleanups exist in the source: the regex-substitution one in
`extract_hyperparameters` (lines 57–63) and the find-the-braces one used by
`explain_hyperparameter`, `predict_parameter_impact` and
`generate_parameter_correlations` (e.g. lines 294–299). -/

/-- Does `l` end with `p`?  Models Python `str.endswith`. -/
def endsWithSub (l p : Str) : Bool := startsWithSub l.reverse p.reverse

/-- Remove trailing ASCII whitespace. -/
def rtrimSpace (s : Str) : Str := (s.reverse.dropWhile isSpaceChar).reverse

/-- `re.sub(r"^```(?:json)?\s*", "", raw)`: strip a leading fence with an
optional `json` tag and following whitespace. -/
def extractFenceSub1 (t : Str) : Str :=
  if startsWithSub t ("```".data) then
    let t1 := t.drop 3
    let t2 := if startsWithSub t1 ("json".data) then t1.drop 4 else t1
    t2.dropWhile isSpaceChar
  else t

/-- `re.sub(r"\s*```$", "", raw)`: strip a trailing fence (the `$` anchor
also matches just before a final newline) and the whitespace before it. -/
def extractFenceSub2 (t : Str) : Str :=
  if endsWithSub t ("```".data) then rtrimSpace (t.take (t.length - 3))
  else if endsWithSub t ("```\n".data) then rtrimSpace (t.take (t.length - 4)) ++ ['\n']
  else t

/-- The whole normalization in `extract_hyperparameters` (lines 57–63):
strip fences, strip, then unconditionally replace every single quote by a
double quote. -/
def extractClean (raw : Str) : Str :=
  replaceChar (pyStrip (extractFenceSub2 (extractFenceSub1 raw))) squo '"'

/-- `extract_hyperparameters` on the neural (default) path, as a function of
the external response: any exception — including an unparsable response —
yields the empty mapping (lines 46–70). -/
def extractFromResponse (resp : Except Str Str) : Json :=
  match resp with
  | .error _ => Json.obj []
  | .ok raw =>
    match jsonLoads (extractClean raw) with
    | some j => j
    | none => Json.obj []

/-- The fence cleanup used by `explain_hyperparameter` (lines 294–299) and
the prediction/correlation wrappers: when the text starts with a fence, cut
from the first `{` (index `-1` when absent, as in Python) to the next fence
marker after index 3, and strip. -/
def fenceBoundClean (t : Str) : Str :=
  if startsWithSub t ("```".data) then
    let e := pyFind t ("```".data) 3
    if e > 0 then pyStrip (pySlice t (pyFind t [lb] 0) e) else t
  else t

/-! ### `explain_hyperparameter` (lines 224–360)

The prompt text (including the `metrics` special case) only shapes what is
sent to the external call, so the call is abstracted as an oracle from the
prompt kind — the main prompt or the simpler retry prompt — to either a
raised exception (`Except.error`) or a response text. -/

/-- Which of the two prompts a call uses. -/
inductive PromptKind where
  | main
  | retry
deriving DecidableEq, Repr

/-- A Python exception escaping `explain_hyperparameter`: a
`JSONDecodeError`, an exception from the external call, or the `TypeError`
that `"alternativeValues" in parsed` / `parsed["alternativeValues"]`
(line 306) raises on a non-dict parse. -/
inductive PyExc where
  | jsonDecode (doc : Str)
  | api (msg : Str)
  | typeError
deriving DecidableEq, Repr

/-- The positional complexity tier (lines 310–315): the comparisons are
`i < n / 3` and `i < 2 * n / 3` with Python's real division. -/
def complexityTier (i n : Nat) : Str :=
  if 3 * i < n then "basic".data
  else if 3 * i < 2 * n then "intermediate".data
  else "advanced".data

/-- Backfill of the `complexity` field (lines 306–315): dict entries of the
list that lack the key get the positional tier; everything else is kept. -/
def backfillAlts (alts : List Json) : List Json :=
  alts.mapIdx (fun i a =>
    match a with
    | .obj fs =>
      match dictGet? fs ("complexity".data) with
      | none => .obj (dictSet fs ("complexity".data) (.str (complexityTier i alts.length)))
      | some _ => a
    | _ => a)

/-- The post-parse fixup of the first (non-retry) response (lines 305–317),
including the `TypeError`s of line 306: on a dict, `"alternativeValues" in
parsed` is key membership and a list value gets the backfill; on a string,
`in` is a substring test and a hit makes `parsed["alternativeValues"]`
raise; on a list, `in` is element membership (Python equality holds only
against an equal string) and a hit makes the indexing raise; numbers,
booleans and null are not iterable, so `in` itself raises. -/
def explainAlternativesFix (parsed : Json) : Except PyExc Json :=
  match parsed with
  | .obj fs =>
    match dictGet? fs ("alternativeValues".data) with
    | some (.arr alts) =>
      .ok (.obj (dictSet fs ("alternativeValues".data) (.arr (backfillAlts alts))))
    | _ => .ok parsed
  | .str s =>
    if containsSub s ("alternativeValues".data) then .error .typeError else .ok parsed
  | .arr l =>
    if l.any (fun x => match x with
        | .str s => decide (s = "alternativeValues".data)
        | _ => false) then .error .typeError
    else .ok parsed
  | _ => .error .typeError

/-- `explain_hyperparameter`: first call, fence cleanup, parse; a
successful first parse goes through the line-306 fixup, whose `TypeError`
propagates through the outer handler (lines 357–360); on parse failure one
retry with the simpler prompt; on retry parse failure the original
`JSONDecodeError` is re-raised (lines 351–355); an exception from either
external call propagates.  Returns the outcome and the list of external
calls made. -/
def explainHyperparameter (oracle : PromptKind → Except Str Str) :
    Except PyExc Json × List PromptKind :=
  match oracle .main with
  | .error m => (.error (.api m), [.main])
  | .ok t0 =>
    let t := fenceBoundClean t0
    match jsonLoads t with
    | some parsed => (explainAlternativesFix parsed, [.main])
    | none =>
      match oracle .retry with
      | .error m => (.error (.api m), [.main, .retry])
      | .ok r0 =>
        match jsonLoads (fenceBoundClean r0) with
        | some j => (.ok j, [.main, .retry])
        | none => (.error (.jsonDecode t), [.main, .retry])

/-! ### `generate_default_performance_data` (lines 657–749) -/

/-- Python `round(q, 6)` on the exact rational model (round half to even). -/
def pyRound6 (q : ℚ) : ℚ :=
  let r : ℚ := q * 1000000
  let f : ℤ := ⌊r⌋
  let d : ℚ := r - (f : ℚ)
  let n : ℤ :=
    if d > 1 / 2 then f + 1
    else if d < 1 / 2 then f
    else if f % 2 = 0 then f else f + 1
  (n : ℚ) / 1000000

/-- The number of decimal digits needed for an exact decimal rational
(bounded by the 6 digits `pyRound6` can produce). -/
def decExp (a : ℚ) : Nat :=
  ((List.range 7).find? (fun k => decide ((a * (10 : ℚ) ^ k).den = 1))).getD 6

/-- Python `str()` of a float, for the exact decimal rationals produced by
`pyRound6`: minimal decimal digits, integral values ending in `.0`. -/
def floatRepr (q : ℚ) : Str :=
  let sgn : Str := if q < 0 then ['-'] else []
  let a : ℚ := |q|
  if a.den = 1 then sgn ++ (Nat.repr a.num.toNat).data ++ ".0".data
  else
    let k := decExp a
    let m := (a * (10 : ℚ) ^ k).num.toNat
    let fd := (Nat.repr (m % 10 ^ k)).data
    sgn ++ (Nat.repr (m / 10 ^ k)).data ++ ['.'] ++
      List.replicate (k - fd.length) '0' ++ fd

/-- Python `str.title()` (ASCII): uppercase a letter that follows a
non-letter, lowercase the other letters. -/
def pyTitle (s : Str) : Str :=
  (s.foldl
    (fun st c =>
      let t := if c.isAlpha then (if st.2 then c.toLower else c.toUpper) else c
      (st.1 ++ [t], c.isAlpha))
    (([] : Str), false)).1

/-- The `f"{name.replace('_', ' ').title()} ..."` axis labels. -/
def axisLabel (name : Str) (suffix : Str) : Str :=
  pyTitle (replaceChar name '_' ' ') ++ suffix

/-- One data point of a performance series. -/
structure SeriesPoint where
  x : Str
  y : ℚ
deriving DecidableEq, Repr

/-- One named performance series. -/
structure PerfSeries where
  name : Str
  data : List SeriesPoint
deriving DecidableEq, Repr

/-- One suggested value with its reason. -/
structure SuggestedValue where
  value : Str
  reason : Str
deriving DecidableEq, Repr

/-- The record built by the performance-prediction functions. -/
structure PerfData where
  parameterName : Str
  parameterType : Str
  currentValue : Str
  xAxisLabel : Str
  yAxisLabel : Str
  series : List PerfSeries
  suggestedValues : List SuggestedValue
deriving DecidableEq, Repr

/-- The continuous-parameter keyword test (line 662). -/
def isContinuousName (name : Str) : Bool :=
  ["rate", "size", "epochs", "factor", "threshold"].any
    (fun t => containsSub (lowerStr name) t.data)

/-- The categorical option lists (lines 704–712). -/
def categoricalOptions (name : Str) : List Str :=
  if containsSub (lowerStr name) ("optimizer".data) then
    ["sgd".data, "adam".data, "rmsprop".data, "adagrad".data, "adadelta".data]
  else if containsSub (lowerStr name) ("activation".data) then
    ["relu".data, "sigmoid".data, "tanh".data, "elu".data, "leaky_relu".data]
  else if containsSub (lowerStr name) ("loss".data) then
    ["categorical_crossentropy".data, "binary_crossentropy".data, "mse".data, "mae".data]
  else
    ["option1".data, "option2".data, "option3".data, "option4".data, "option5".data]

/-- The categorical branch of `generate_default_performance_data`
(lines 702–749). -/
def defaultPerfCategorical (name value : Str) : PerfData :=
  let opts0 := categoricalOptions name
  let lval := lowerStr value
  let found := opts0.findIdx? (fun o => decide (o = lval))
  let opts := match found with | some _ => opts0 | none => opts0.set 0 lval
  let idx := match found with | some i => i | none => 0
  let trainAcc := ([41/50, 9/10, 87/100, 17/20, 83/100] : List ℚ).set idx (9/10)
  let valAcc := ([39/50, 17/20, 83/100, 4/5, 77/100] : List ℚ).set idx (17/20)
  { parameterName := name
    parameterType := "categorical".data
    currentValue := value
    xAxisLabel := axisLabel name " Option".data
    yAxisLabel := "Accuracy".data
    series := [
      { name := "Training Accuracy".data
        data := (opts.zip trainAcc).map (fun p => { x := p.1, y := p.2 }) },
      { name := "Validation Accuracy".data
        data := (opts.zip valAcc).map (fun p => { x := p.1, y := p.2 }) }]
    suggestedValues := [
      { value := opts.getD idx []
        reason := "Current value - typically optimal".data },
      { value := opts.getD ((idx + 1) % opts.length) []
        reason := "Alternative with good performance".data }] }

/-- `generate_default_performance_data`: continuous when the name matches a
continuous keyword and `float(value)` succeeds, else categorical. -/
def generateDefaultPerformanceData (name value : Str) : PerfData :=
  match (if isContinuousName name then pyFloat? value else none) with
  | some cv =>
    let values := [cv / 10, cv / 2, cv, cv * 2, cv * 10].map pyRound6
    let trainAcc : List ℚ := [3/4, 17/20, 9/10, 22/25, 83/100]
    let valAcc : List ℚ := [7/10, 41/50, 17/20, 4/5, 3/4]
    { parameterName := name
      parameterType := "continuous".data
      currentValue := value
      xAxisLabel := axisLabel name " Value".data
      yAxisLabel := "Accuracy".data
      series := [
        { name := "Training Accuracy".data
          data := (values.zip trainAcc).map (fun p => { x := floatRepr p.1, y := p.2 }) },
        { name := "Validation Accuracy".data
          data := (values.zip valAcc).map (fun p => { x := floatRepr p.1, y := p.2 }) }]
      suggestedValues := [
        { value := floatRepr (values.getD 1 0), reason := "Better generalization".data },
        { value := floatRepr (values.getD 2 0), reason := "Current value - typically optimal".data },
        { value := floatRepr (values.getD 3 0), reason := "May improve performance if underfitting".data }] }
  | none => defaultPerfCategorical name value

/-- The JSON shape of a `PerfData` record, with the source's keys. -/
def perfDataToJson (d : PerfData) : Json :=
  .obj [
    ("parameter_name".data, .str d.parameterName),
    ("parameter_type".data, .str d.parameterType),
    ("current_value".data, .str d.currentValue),
    ("x_axis_label".data, .str d.xAxisLabel),
    ("y_axis_label".data, .str d.yAxisLabel),
    ("series".data, .arr (d.series.map (fun s => .obj [
      ("name".data, .str s.name),
      ("data".data, .arr (s.data.map
        (fun p => .obj [("x".data, .str p.x), ("y".data, .num p.y)])))]))),
    ("suggested_values".data, .arr (d.suggestedValues.map (fun v => .obj [
      ("value".data, .str v.value), ("reason".data, .str v.reason)])))]

/-- `predict_parameter_impact` on the default neural path (lines 425–451):
the parsed response when the external call succeeds and its output parses,
otherwise the deterministic fallback; no exception escapes. -/
def predictParameterImpact (name value : Str) (resp : Except Str Str) : Json :=
  match resp with
  | .error _ => perfDataToJson (generateDefaultPerformanceData name value)
  | .ok t =>
    match jsonLoads (fenceBoundClean t) with
    | some j => j
    | none => perfDataToJson (generateDefaultPerformanceData name value)

/-! ### `generate_fallback_correlation_data` (lines 811–887)

`random.uniform(-0.2, 0.2)` rounded to two digits is abstracted as a noise
oracle indexed by the matrix position; the theorems hypothesise only its
range. -/

/-- One explanation entry of the correlation record. -/
structure CorrExpl where
  param1 : Str
  param2 : Str
  effect : Str
  strength : Str
  direction : Str
deriving DecidableEq, Repr

/-- The record built by `generate_fallback_correlation_data`. -/
structure CorrData where
  matrix : List (List ℚ)
  paramNames : List Str
  explanations : List CorrExpl
deriving DecidableEq, Repr

/-- The fixed table of named-pair correlations (lines 828–838). -/
def commonPairs : List ((Str × Str) × ℚ) := [
  (("learning_rate".data, "batch_size".data), -(2/5)),
  (("learning_rate".data, "epochs".data), 3/10),
  (("learning_rate".data, "dropout_rate".data), 1/2),
  (("batch_size".data, "epochs".data), 1/5),
  (("batch_size".data, "dropout_rate".data), -(3/10)),
  (("epochs".data, "dropout_rate".data), 2/5),
  (("optimizer".data, "learning_rate".data), 3/5),
  (("loss".data, "metrics".data), 7/10),
  (("metrics".data, "epochs".data), 1/5)]

/-- The known-pair lookup (lines 842–848): the lowercased parameter names
are matched as substrings of a table key pair, in either order; `0` when no
entry matches. -/
def corrTable (ni nj : Str) : ℚ :=
  match commonPairs.find? (fun p =>
      (containsSub p.1.1 (lowerStr ni) && containsSub p.1.2 (lowerStr nj)) ||
      (containsSub p.1.2 (lowerStr ni) && containsSub p.1.1 (lowerStr nj))) with
  | some p => p.2
  | none => 0

/-- The correlation assigned to the pair `(i, j)` (lines 842–852): the table
value, or the noise draw when the table yielded `0.0`. -/
def corrValue (names : List Str) (noise : Nat → Nat → ℚ) (i j : Nat) : ℚ :=
  let c := corrTable (names.getD i []) (names.getD j [])
  if c = 0 then noise i j else c

/-- The effect text (lines 863–873). -/
def corrEffect (names : List Str) (i j : Nat) : Str :=
  let ni := lowerStr (names.getD i [])
  let nj := lowerStr (names.getD j [])
  if ni = "learning_rate".data ∧ nj = "batch_size".data then
    "Higher learning rates often require smaller batch sizes to prevent divergence, while lower learning rates work better with larger batches.".data
  else if (ni = "learning_rate".data ∧ nj = "epochs".data) ∨
      (ni = "epochs".data ∧ nj = "learning_rate".data) then
    "Higher learning rates typically require fewer epochs to converge, while lower learning rates need more epochs to reach optimal performance.".data
  else if (ni = "dropout_rate".data ∧ nj = "epochs".data) ∨
      (ni = "epochs".data ∧ nj = "dropout_rate".data) then
    "Models with higher dropout rates often need more epochs to converge as dropout slows down the learning process.".data
  else
    "Changes in ".data ++ names.getD i [] ++ " often require adjustments to ".data ++
      names.getD j [] ++ " for optimal performance.".data

/-- The explanation entry appended for a significant pair (lines 858–881). -/
def corrExplEntry (names : List Str) (noise : Nat → Nat → ℚ) (i j : Nat) : CorrExpl :=
  let c := corrValue names noise i j
  { param1 := names.getD i []
    param2 := names.getD j []
    effect := corrEffect names i j
    strength := if |c| > 7/10 then "high".data
      else if |c| > 1/2 then "medium".data else "low".data
    direction := if c > 0 then "positive".data else "negative".data }

/-- Entry read of a list-of-lists matrix. -/
def entryAt (m : List (List ℚ)) (i j : Nat) : ℚ := (m.getD i []).getD j 0

/-- Entry write of a list-of-lists matrix (Python `matrix[i][j] = v`). -/
def setEntry (m : List (List ℚ)) (i j : Nat) (v : ℚ) : List (List ℚ) :=
  m.set i ((m.getD i []).set j v)

/-- The zero matrix with unit diagonal (lines 817–822). -/
def diagMatrix (n : Nat) : List (List ℚ) :=
  (List.range n).foldl (fun m i => setEntry m i i 1)
    (List.replicate n (List.replicate n 0))

/-- The loop order of `for i in range(n): for j in range(i+1, n)`. -/
def pairList (n : Nat) : List (Nat × Nat) :=
  (List.range n).flatMap (fun i => (List.range' (i + 1) (n - (i + 1))).map (fun j => (i, j)))

/-- One iteration of the pair loop (lines 840–881): write the symmetric
entries, and append an explanation when `abs(corr) > 0.3`. -/
def corrStep (names : List Str) (noise : Nat → Nat → ℚ)
    (st : List (List ℚ) × List CorrExpl) (p : Nat × Nat) :
    List (List ℚ) × List CorrExpl :=
  let c := corrValue names noise p.1 p.2
  (setEntry (setEntry st.1 p.1 p.2 c) p.2 p.1 c,
   if |c| > 3/10 then st.2 ++ [corrExplEntry names noise p.1 p.2] else st.2)

/-- `generate_fallback_correlation_data`. -/
def generateFallbackCorrelationData (parameters : List (Str × Json))
    (noise : Nat → Nat → ℚ) : CorrData :=
  let names := parameters.map (·.1)
  let n := names.length
  let r := (pairList n).foldl (corrStep names noise) (diagMatrix n, [])
  { matrix := r.1, paramNames := names, explanations := r.2 }

/-- The JSON shape of a `CorrData` record, with the source's keys. -/
def corrDataToJson (d : CorrData) : Json :=
  .obj [
    ("correlation_matrix".data, .arr (d.matrix.map (fun row => .arr (row.map Json.num)))),
    ("parameter_names".data, .arr (d.paramNames.map Json.str)),
    ("explanations".data, .arr (d.explanations.map (fun e => .obj [
      ("param1".data, .str e.param1), ("param2".data, .str e.param2),
      ("effect".data, .str e.effect), ("strength".data, .str e.strength),
      ("direction".data, .str e.direction)])))]

/-- `generate_parameter_correlations` (lines 752–809): the parsed response
when the external call succeeds and its output parses, otherwise the
deterministic fallback; no exception escapes. -/
def generateParameterCorrelations (parameters : List (Str × Json))
    (noise : Nat → Nat → ℚ) (resp : Except Str Str) : Json :=
  match resp with
  | .error _ => corrDataToJson (generateFallbackCorrelationData parameters noise)
  | .ok t =>
    match jsonLoads (fenceBoundClean t) with
    | some j => j
    | none => corrDataToJson (generateFallbackCorrelationData parameters noise)

/-! ### The `/explain` route (app.py lines 38–131) -/

mutual

/-- Python `str()` of a parsed JSON value (repr-style, single-quoted
strings); only its first 300 characters can reach the route's output. -/
def pyStrJson : Json → Str
  | .null => "None".data
  | .bool true => "True".data
  | .bool false => "False".data
  | .num q => if q.den = 1 then (toString q.num).data else floatRepr q
  | .str s => [squo] ++ s ++ [squo]
  | .arr l => ['['] ++ pyStrList l ++ [']']
  | .obj fs => [lb] ++ pyStrFields fs ++ [rb]

/-- Comma-joined reprs of list elements. -/
def pyStrList : List Json → Str
  | [] => []
  | [x] => pyStrJson x
  | x :: y :: xs => pyStrJson x ++ ", ".data ++ pyStrList (y :: xs)

/-- Comma-joined reprs of dict items. -/
def pyStrFields : List (Str × Json) → Str
  | [] => []
  | [(k, v)] => [squo] ++ k ++ [squo] ++ ": ".data ++ pyStrJson v
  | (k, v) :: w :: xs =>
    [squo] ++ k ++ [squo] ++ ": ".data ++ pyStrJson v ++ ", ".data ++ pyStrFields (w :: xs)

end

/-- The plain-text template of the route (app.py lines 68–74 and 78–84). -/
def routeTextTemplate (value explan : Str) : List (Str × Json) := [
  ("importance".data, .str "Parameter importance".data),
  ("definition".data, .str (explan.take 300)),
  ("currentValueAnalysis".data, .str ("Value: ".data ++ value)),
  ("alternativeValues".data, .arr [.str "10".data, .str "100".data, .str "500".data]),
  ("bestPractices".data, .str "Best practices".data),
  ("tradeOffs".data, .str "Trade-offs".data),
  ("impactVisualization".data, .str "Visualization".data)]

/-- The template for a value that is neither string nor dict (lines 87–93). -/
def routeOtherTemplate (name value : Str) (explan : Json) : List (Str × Json) := [
  ("importance".data, .str ("Explaining ".data ++ name)),
  ("definition".data, .str ((pyStrJson explan).take 300)),
  ("currentValueAnalysis".data, .str ("Value: ".data ++ value)),
  ("alternativeValues".data, .arr [.str "10".data, .str "100".data, .str "500".data]),
  ("bestPractices".data, .str "Best practices".data),
  ("tradeOffs".data, .str "Trade-offs".data),
  ("impactVisualization".data, .str "Visualization".data)]

/-- The `result` dict of the route after the type dispatch on what
`explain_hyperparameter` returned (lines 52–93). -/
def routeResult (name value : Str) (explan : Json) : List (Str × Json) :=
  match explan with
  | .obj fs => fs
  | .str s =>
    match jsonLoads s with
    | some (.obj fs) => fs
    | _ => routeTextTemplate value s
  | other => routeOtherTemplate name value other

/-- The nested-JSON repair loop of the route (lines 96–112): a string value
whose stripped form starts with a brace is parsed; on success the value
becomes the parsed object's entry under the same key when present, else the
whole parsed object. -/
def routeNestedFix (result : List (Str × Json)) : List (Str × Json) :=
  result.map (fun kv =>
    match kv.2 with
    | .str s =>
      if (pyStrip s).head? = some lb then
        match jsonLoads s with
        | some (.obj pfs) =>
          (kv.1, match dictGet? pfs kv.1 with
                 | some inner => inner
                 | none => .obj pfs)
        | _ => kv
      else kv
    | _ => kv)

/-- The `simple_response` the route always returns on the non-exception
path (lines 120–131). -/
def routeSimpleResponse (name value : Str) (result : List (Str × Json)) : Json :=
  .obj [
    ("importance".data,
      .str ("The ".data ++ name ++ " parameter affects model performance".data)),
    ("definition".data,
      .str ("Definition of ".data ++ name ++ ": ".data ++
        (match dictGet? result ("definition".data) with
         | some (.str s) => s.take 200
         | _ => "Parameter definition".data))),
    ("currentValueAnalysis".data,
      .str ("Value ".data ++ value ++ " is ".data ++
        (match dictGet? result ("currentValueAnalysis".data) with
         | some (.str s) => s.take 100
         | _ => "appropriate for most uses".data))),
    ("alternativeValues".data,
      match dictGet? result ("alternativeValues".data) with
      | some (.arr l) => .arr (l.take 3)
      | _ => .arr [.str "10".data, .str "100".data, .str "500".data]),
    ("bestPractices".data, .str "Use cross-validation to find optimal value".data),
    ("tradeOffs".data, .str "Balance between model complexity and performance".data),
    ("impactVisualization".data,
      .str "Higher values may increase training time but improve accuracy".data)]

/-- The `/explain` route body on the non-exception path, as a function of
what `explain_hyperparameter` returned. -/
def appExplainRoute (name value : Str) (explan : Json) : Json :=
  routeSimpleResponse name value (routeNestedFix (routeResult name value explan))

/-! ### `extract_hyperparameters_classical` (lines 107–221)

The assignment regex is `(\w+)\s*=\s*([^;{}\n]+)`.  When only whitespace can
start the second group, the greedy `\s*` backtracks until the group can
begin on a non-newline whitespace character; that case is embedded exactly. -/

/-- The character class `[^;{}\n]`. -/
def isAssignValChar (c : Char) : Bool := !(c = ';' || c = lb || c = rb || c = '\n')

/-- Backtracking case of `\s*([^;{}\n]+)`: the group starts on the last
non-newline whitespace character and ends immediately. -/
def backtrackWs (ws2 : Str) : Option (Nat × Str) :=
  match ws2.reverse.span (fun c => c = '\n') with
  | (nl, c :: _) => some (ws2.length - nl.length, [c])
  | (_, []) => none

/-- `\s*([^;{}\n]+)` after the `=`: consumed length and the raw group. -/
def classicalValueAt (rest : Str) : Option (Nat × Str) :=
  let (ws2, r2) := rest.span isSpaceChar
  match r2 with
  | c :: _ =>
    if isAssignValChar c then
      let (v, _) := r2.span isAssignValChar
      some (ws2.length + v.length, v)
    else backtrackWs ws2
  | [] => backtrackWs ws2

/-- One attempted match of the assignment regex at the head of `l`. -/
def matchClassicalAt (l : Str) : Option (Str × Str × Nat) :=
  let (name, r1) := l.span isWordChar
  if name = [] then none
  else
    let (ws1, r2) := r1.span isSpaceChar
    match r2 with
    | c :: r3 =>
      if c = '=' then
        match classicalValueAt r3 with
        | some (cl, v) => some (name, v, name.length + ws1.length + 1 + cl)
        | none => none
      else none
    | [] => none

/-- The `re.finditer` scan for the assignment regex, tracking positions. -/
def scanAssigns : Nat → Str → Nat → List (Str × Str × Nat × Nat)
  | 0, _, _ => []
  | _ + 1, [], _ => []
  | f + 1, c :: rest, pos =>
    match matchClassicalAt (c :: rest) with
    | some (n, v, len) =>
      (n, v, pos, pos + len) :: scanAssigns f ((c :: rest).drop len) (pos + len)
    | none => scanAssigns f rest (pos + 1)

/-- One potential hyperparameter assignment (lines 113–119): stripped value,
±50-character context window, and start position. -/
structure Assign where
  name : Str
  value : Str
  context : Str
  position : Nat
deriving DecidableEq, Repr

/-- The assignment list of `extract_hyperparameters_classical`. -/
def assignmentsOf (code : Str) : List Assign :=
  (scanAssigns code.length code 0).map (fun m =>
    match m with
    | (n, v, s, e) =>
      { name := n
        value := pyStrip v
        context := pySlice code (max 0 ((s : Int) - 50)) (min (code.length : Int) ((e : Int) + 50))
        position := s })

/-- Name keywords of feature 3 (lines 136–139). -/
def hyperKeywords : List Str :=
  ["rate", "learning", "lr", "epoch", "batch", "size", "dropout", "alpha",
   "beta", "lambda", "reg", "momentum", "weight", "decay"].map String.data

/-- Context keywords of feature 4 (lines 142–145). -/
def mlKeywords : List Str :=
  ["train", "model", "fit", "compile", "optimizer", "loss", "accuracy",
   "neural", "network", "layer", "keras", "tensorflow"].map String.data

/-- Context keywords of feature 5 (lines 148–150). -/
def paramKeywords : List Str :=
  ["hyperparameter", "parameter", "config", "configuration"].map String.data

/-- Python `str.isupper()` (ASCII): some cased character, all cased
characters uppercase. -/
def pyIsUpper (s : Str) : Bool :=
  s.any Char.isAlpha && s.all (fun c => !c.isAlpha || c.isUpper)

/-- The regex `^0\.[0-9]+$` of feature 2. -/
def isSubUnitDecimal (v : Str) : Bool :=
  match v with
  | '0' :: '.' :: ds => !ds.isEmpty && ds.all Char.isDigit
  | _ => false

/-- The 8-element feature vector of one assignment (lines 126–160). -/
def featuresOf (code : Str) (a : Assign) : List ℚ :=
  [if !a.value.isEmpty && a.value.all isNumDotChar then 1 else 0,
   if isSubUnitDecimal a.value then 1 else 0,
   if hyperKeywords.any (fun k => containsSub (lowerStr a.name) k) then 1 else 0,
   if mlKeywords.any (fun k => containsSub (lowerStr a.context) k) then 1 else 0,
   if paramKeywords.any (fun k => containsSub (lowerStr a.context) k) then 1 else 0,
   if pyIsUpper a.name then 1 else 0,
   if startsWithSub a.name ['_'] then 1 else 0,
   (a.position : ℚ) / (code.length : ℚ)]

/-- The fixed weights of `simulate_ml_model` (line 174). -/
def classifierWeights : List ℚ := [3/5, 4/5, 9/10, 7/10, 1/2, -(1/2), -(2/5), -(1/5)]

/-- Dot product of two feature lists (`np.dot`). -/
def dotProd (x w : List ℚ) : ℚ := ((x.zip w).map (fun p => p.1 * p.2)).sum

/-- The confidence score of one assignment. -/
def assignScore (code : Str) (a : Assign) : ℚ :=
  dotProd (featuresOf code a) classifierWeights

/-- The regex `^[0-9]*\.[0-9]+$` (line 197). -/
def isFloatShape (v : Str) : Bool :=
  match (v.span Char.isDigit).2 with
  | '.' :: ds => !ds.isEmpty && ds.all Char.isDigit
  | _ => false

/-- The accepted-value coercion of step 4 (lines 187–203): strip symmetric
quotes, else integer shape, else decimal shape, else booleans, else the raw
string. -/
def coerceClassical (v : Str) : PyVal :=
  if (startsWithSub v [squo] && endsWithSub v [squo]) ||
      (startsWithSub v ['"'] && endsWithSub v ['"']) then
    .str ((v.drop 1).dropLast)
  else if !v.isEmpty && v.all Char.isDigit then .int (natOfDigits v : ℤ)
  else if isFloatShape v then .float ((pyFloat? v).getD 0)
  else if lowerStr v = "true".data then .bool true
  else if lowerStr v = "false".data then .bool false
  else .str v

/-- Step 4 (lines 184–205): keep exactly the assignments whose confidence
score strictly exceeds `0.7`. -/
def classicalStepFour (code : Str) : List (Str × PyVal) :=
  (assignmentsOf code).foldl
    (fun d a =>
      if assignScore code a > 7/10 then dictSet d a.name (coerceClassical a.value) else d)
    []

/-- One attempted match of the layer regex `(\w+)\s*\(\s*(\d+)`. -/
def matchLayerAt (l : Str) : Option (Str × Str × Nat) :=
  let (name, r1) := l.span isWordChar
  if name = [] then none
  else
    let (ws1, r2) := r1.span isSpaceChar
    match r2 with
    | '(' :: r3 =>
      let (ws2, r4) := r3.span isSpaceChar
      let (ds, _) := r4.span Char.isDigit
      if ds = [] then none
      else some (name, ds, name.length + ws1.length + 1 + ws2.length + ds.length)
    | _ => none

/-- The `re.finditer` scan for the layer regex. -/
def scanLayers : Nat → Str → List (Str × Str)
  | 0, _ => []
  | _ + 1, [] => []
  | f + 1, c :: rest =>
    match matchLayerAt (c :: rest) with
    | some (n, v, len) => (n, v) :: scanLayers f ((c :: rest).drop len)
    | none => scanLayers f rest

/-- Step 5 (lines 207–218): inject `hidden_units` / `filters` defaults from
`Dense(...)` / `Conv2D(...)` calls when not already captured. -/
def classicalStepFive (params0 : List (Str × PyVal)) (code : Str) : List (Str × PyVal) :=
  (scanLayers code.length code).foldl
    (fun d m =>
      if m.1 = "Dense".data then
        match dictGet? d ("hidden_units".data) with
        | none => dictSet d ("hidden_units".data) (.int (natOfDigits m.2 : ℤ))
        | some _ => d
      else if m.1 = "Conv2D".data then
        match dictGet? d ("filters".data) with
        | none => dictSet d ("filters".data) (.int (natOfDigits m.2 : ℤ))
        | some _ => d
      else d)
    params0

/-- `extract_hyperparameters_classical`: empty when no assignment matches
(line 121, skipping step 5), else steps 4 and 5. -/
def extractHyperparametersClassical (code : Str) : List (Str × PyVal) :=
  match assignmentsOf code with
  | [] => []
  | _ :: _ => classicalStepFive (classicalStepFour code) code

/-! ### Concrete test inputs and lookup helpers used by the theorems -/

/-- Fields of a JSON object (empty for other values). -/
def jsonFields : Json → List (Str × Json)
  | .obj fs => fs
  | _ => []

/-- Field lookup on a JSON object. -/
def jsonLookup (j : Json) (k : Str) : Option Json := dictGet? (jsonFields j) k

/-- The spec scenario response `Here's the answer: {'importance': 'x'}`. -/
def scenarioResponse : Str :=
  "Here".data ++ [squo] ++ "s the answer: ".data ++ [lb] ++ [squo] ++
    "importance".data ++ [squo] ++ ": ".data ++ [squo] ++ "x".data ++ [squo] ++ [rb]

/-- The bare single-quoted object `{'importance': 'x'}`. -/
def bareSingleQuoted : Str :=
  [lb] ++ [squo] ++ "importance".data ++ [squo] ++ ": ".data ++ [squo] ++
    "x".data ++ [squo] ++ [rb]

/-- Wrap a text in the fences of the spec scenario. -/
def fenceWrap (s : Str) : Str := "```json\n".data ++ s ++ "\n```".data

/-- The object text of the fence scenario. -/
def objAOne : Str := [lb] ++ "\"a\":1".data ++ [rb]

/-- A well-formed JSON object whose string value contains a fence marker. -/
def objBacktickStr : Str := [lb] ++ "\"a\":\"```\"".data ++ [rb]

/-! ## Theorems -/

/-! ### Dict lemmas -/

theorem dictGet?_dictSet {α : Type} (d : List (Str × α)) (k : Str) (v : α) (q : Str) :
    dictGet? (dictSet d k v) q = if k = q then some v else dictGet? d q := by
  induction d with
  | nil => simp [dictSet, dictGet?]
  | cons kv d ih =>
    obtain ⟨k', v'⟩ := kv
    by_cases h1 : k' = k
    · subst h1
      by_cases h2 : k' = q <;> simp [dictSet, dictGet?, h2]
    · by_cases h2 : k' = q
      · subst h2
        have h3 : ¬k = k' := fun h => h1 h.symm
        simp [dictSet, dictGet?, h1, h3]
      · simp [dictSet, dictGet?, h1, h2, ih]

theorem find?_append_match {α : Type} (p : α → Bool) (l1 l2 : List α) :
    (l1 ++ l2).find? p =
      (match l1.find? p with
       | some x => some x
       | none => l2.find? p) := by
  induction l1 with
  | nil => simp
  | cons a l1 ih =>
    by_cases h : p a <;> simp [List.find?, h, ih]

theorem dictGet?_foldl_set {α : Type} (g : Str × Str → α) (q : Str) :
    ∀ (ms : List (Str × Str)) (d : List (Str × α)),
    dictGet? (ms.foldl (fun d m => dictSet d m.1 (g m)) d) q =
      (match ms.reverse.find? (fun m => decide (m.1 = q)) with
       | some m => some (g m)
       | none => dictGet? d q) := by
  intro ms
  induction ms with
  | nil => intro d; simp
  | cons m ms ih =>
    intro d
    simp only [List.foldl_cons, List.reverse_cons]
    rw [ih, find?_append_match]
    cases hf : ms.reverse.find? (fun m => decide (m.1 = q)) with
    | some x => simp
    | none =>
      simp only
      rw [dictGet?_dictSet]
      by_cases h : m.1 = q <;> simp [List.find?, h]

theorem isSome_foldl_cond {α β : Type} (cond : β → Prop) [DecidablePred cond]
    (key : β → Str) (val : β → α) (q : Str) :
    ∀ (as : List β) (d : List (Str × α)),
    (dictGet? (as.foldl (fun d a => if cond a then dictSet d (key a) (val a) else d) d) q).isSome =
      (as.any (fun a => decide (cond a) && decide (key a = q)) || (dictGet? d q).isSome) := by
  intro as
  induction as with
  | nil => intro d; simp
  | cons a as ih =>
    intro d
    simp only [List.foldl_cons, List.any_cons]
    by_cases hc : cond a
    · rw [if_pos hc, ih]
      rw [dictGet?_dictSet]
      by_cases hn : key a = q
      · simp [hn, hc]
      · simp [hn, hc]
    · rw [if_neg hc, ih]
      simp [hc]

unseal Rat.add Rat.inv Rat.mul Rat.sub in
/-- C1, corrected: for every code text and name, the naive extractor binds
the name to the shape-coerced value (`int` for an integer literal, `float`
for a decimal one, booleans and quote-stripped strings for those literals)
of the last regex match for that name; on the scenario input it yields the
numbers 32 and 0.001, not the strings "32" and "0.001". -/
theorem C1_naive_last_occurrence_coerced :
    (∀ (code : Str) (name : Str),
      dictGet? (extractHyperparametersNaive code) name =
        ((naiveMatches code).reverse.find? (fun m => decide (m.1 = name))).map
          (fun m => coerceNaive m.2)) ∧
    extractHyperparametersNaive ("batch_size = 32\nlearning_rate = 0.001".data) =
      [("batch_size".data, PyVal.int 32), ("learning_rate".data, PyVal.float (1/1000))] := by
  constructor
  · intro code name
    rw [extractHyperparametersNaive, dictGet?_foldl_set]
    cases (naiveMatches code).reverse.find? (fun m => decide (m.1 = name)) <;>
      simp [dictGet?]
  · decide

/-- C1 counterexample: on the spec's own scenario input the naive extractor
binds `batch_size` to the integer 32 — not to any string — and it does
recognize quoted string literals, contradicting the claim. -/
theorem C1_counterexample :
    dictGet? (extractHyperparametersNaive ("batch_size = 32\nlearning_rate = 0.001".data))
        ("batch_size".data) = some (PyVal.int 32) ∧
    (∀ s : Str, PyVal.int 32 ≠ PyVal.str s) ∧
    dictGet? (extractHyperparametersNaive ("opt = \"adam\"\nflag = True".data))
        ("opt".data) = some (PyVal.str ("adam".data)) := by
  refine ⟨rfl, fun s h => PyVal.noConfusion h, rfl⟩

/-- C2 (confirmed): an `identifier = expression` assignment contributes a
hyperparameter to the classical extractor's accepted set exactly when the
dot product of its 8-feature vector with the fixed weights
(0.6, 0.8, 0.9, 0.7, 0.5, −0.5, −0.4, −0.2) strictly exceeds 0.7. -/
theorem C2_classical_threshold (code : Str) (name : Str) :
    dictGet? (classicalStepFour code) name ≠ none ↔
      ∃ a ∈ assignmentsOf code, a.name = name ∧
        dotProd (featuresOf code a)
          [3/5, 4/5, 9/10, 7/10, 1/2, -(1/2), -(2/5), -(1/5)] > 7/10 := by
  rw [← Option.isSome_iff_ne_none, classicalStepFour]
  rw [isSome_foldl_cond (fun a => assignScore code a > 7/10)
    (fun a => a.name) (fun a => coerceClassical a.value) name (assignmentsOf code) []]
  simp only [dictGet?, Option.isSome_none, Bool.or_false, List.any_eq_true,
    Bool.and_eq_true, decide_eq_true_eq]
  constructor
  · rintro ⟨a, ha, hs, hn⟩
    exact ⟨a, ha, hn, hs⟩
  · rintro ⟨a, ha, hn, hs⟩
    exact ⟨a, ha, hs, hn⟩

/-- C3 (confirmed): when the first response fails to parse,
`explain_hyperparameter` attempts exactly one retry, with the simpler
prompt; when the retry response also fails to parse, the original parse
error — the one for the first cleaned response — is raised, and no
synthetic fallback is substituted. -/
theorem C3_explain_retry_then_raise (oracle : PromptKind → Except Str Str)
    (t0 r0 : Str)
    (h0 : oracle .main = .ok t0)
    (h1 : jsonLoads (fenceBoundClean t0) = none)
    (h2 : oracle .retry = .ok r0)
    (h3 : jsonLoads (fenceBoundClean r0) = none) :
    explainHyperparameter oracle =
      (.error (.jsonDecode (fenceBoundClean t0)), [.main, .retry]) := by
  unfold explainHyperparameter
  simp only [h0, h1, h2, h3]

/-- C3 witness at a concrete oracle whose two responses both fail to
parse. -/
theorem C3_witness :
    explainHyperparameter (fun _ => .ok ("not json".data)) =
      (.error (.jsonDecode ("not json".data)), [.main, .retry]) :=
  C3_explain_retry_then_raise _ ("not json".data) ("not json".data) rfl rfl rfl rfl

/-- C4 (confirmed): whenever the external call raises or its output fails
to parse, `predict_parameter_impact` returns exactly the deterministic
default performance record and `generate_parameter_correlations` returns
exactly the deterministic fallback correlation record — neither operation
propagates an error to the caller. -/
theorem C4_prediction_correlation_fallback (name value : Str)
    (parameters : List (Str × Json)) (noise : Nat → Nat → ℚ)
    (resp : Except Str Str)
    (h : (∃ m, resp = .error m) ∨
      ∃ t, resp = .ok t ∧ jsonLoads (fenceBoundClean t) = none) :
    predictParameterImpact name value resp =
      perfDataToJson (generateDefaultPerformanceData name value) ∧
    generateParameterCorrelations parameters noise resp =
      corrDataToJson (generateFallbackCorrelationData parameters noise) := by
  rcases h with ⟨m, rfl⟩ | ⟨t, rfl, hp⟩
  · exact ⟨rfl, rfl⟩
  · unfold predictParameterImpact generateParameterCorrelations
    simp only [hp]
    exact ⟨trivial, trivial⟩

/-- C4 witness at a concrete raised external call. -/
theorem C4_witness :
    predictParameterImpact ("learning_rate".data) ("0.01".data) (.error ("boom".data)) =
      perfDataToJson (generateDefaultPerformanceData ("learning_rate".data) ("0.01".data)) ∧
    generateParameterCorrelations [("learning_rate".data, Json.null)] (fun _ _ => 0)
        (.error ("boom".data)) =
      corrDataToJson
        (generateFallbackCorrelationData [("learning_rate".data, Json.null)] (fun _ _ => 0)) :=
  C4_prediction_correlation_fallback _ _ _ _ _ (Or.inl ⟨_, rfl⟩)

/-- C5 counterexample: on the spec scenario response
`Here's the answer: {'importance': 'x'}` neither normalization yields the
record `{importance: "x"}` — the extract path returns the empty mapping
(the repaired text still has prose before the object and fails the one
parse) and the explain path's cleaned text does not parse either. -/
theorem C5_counterexample :
    extractFromResponse (.ok scenarioResponse) = Json.obj [] ∧
    Json.obj ([] : List (Str × Json)) ≠
      Json.obj [("importance".data, Json.str ("x".data))] ∧
    jsonLoads (fenceBoundClean scenarioResponse) = none := by
  refine ⟨rfl, ?_, rfl⟩
  intro h
  injection h with h1
  exact List.noConfusion h1

/-- C5, amended: the extract-path normalizer strips fences, replaces single
quotes by double quotes unconditionally (not as an on-failure repair), and
attempts exactly one parse, whose value it returns on success; there is no
escape-and-restore placeholder step.  The quote replacement does repair a
bare single-quoted object, but the scenario response with prose around the
object yields the empty mapping. -/
theorem C5_single_quote_repair :
    (∀ (raw : Str) (j : Json),
      jsonLoads (extractClean raw) = some j → extractFromResponse (.ok raw) = j) ∧
    extractFromResponse (.ok bareSingleQuoted) =
      Json.obj [("importance".data, Json.str ("x".data))] ∧
    extractFromResponse (.ok scenarioResponse) = Json.obj [] := by
  refine ⟨?_, rfl, rfl⟩
  intro raw j h
  unfold extractFromResponse
  simp only [h]

/-- C5 witness for the universal conjunct, at the bare single-quoted
object. -/
theorem C5_witness :
    jsonLoads (extractClean bareSingleQuoted) =
      some (Json.obj [("importance".data, Json.str ("x".data))]) ∧
    extractFromResponse (.ok bareSingleQuoted) =
      Json.obj [("importance".data, Json.str ("x".data))] :=
  ⟨rfl, C5_single_quote_repair.1 bareSingleQuoted _ rfl⟩

/-! ### String-search lemmas for the fence-stripping theorem -/

theorem startsWithSub_nil (l : Str) : startsWithSub l [] = true := by
  cases l <;> rfl

theorem startsWithSub_append_self (p r : Str) : startsWithSub (p ++ r) p = true := by
  induction p with
  | nil => exact startsWithSub_nil r
  | cons c p ih => simp [startsWithSub, ih]

theorem startsWithSub_congr_append (p : Str) :
    ∀ (l r1 r2 : Str), p.length ≤ l.length →
    startsWithSub (l ++ r1) p = startsWithSub (l ++ r2) p := by
  induction p with
  | nil => intro l r1 r2 _; rw [startsWithSub_nil, startsWithSub_nil]
  | cons d p ih =>
    intro l r1 r2 h
    cases l with
    | nil => simp at h
    | cons c l =>
      simp only [List.cons_append, startsWithSub, List.append_eq]
      rw [ih l r1 r2 (by simpa using h)]

theorem findSubIdx_fence (m : Str)
    (h : containsSub (m ++ "``".data) ("```".data) = false) :
    findSubIdx (m ++ "```".data) ("```".data) = some m.length := by
  induction m with
  | nil => rfl
  | cons c m ih =>
    have hh : startsWithSub ((c :: m) ++ "``".data) ("```".data) = false ∧
        containsSub (m ++ "``".data) ("```".data) = false := by
      have h' := h
      simp only [List.cons_append, containsSub, Bool.or_eq_false_iff] at h'
      exact ⟨h'.1, h'.2⟩
    have hlen : ("```".data : Str).length ≤ ((c :: m) ++ "``".data).length := by
      have e2 : ("``".data : Str).length = 2 := rfl
      have e3 : ("```".data : Str).length = 3 := rfl
      rw [e3, List.length_append, e2, List.length_cons]
      omega
    have hsw : startsWithSub ((c :: m) ++ "```".data) ("```".data) = false := by
      have e1 : (c :: m) ++ "```".data = ((c :: m) ++ "``".data) ++ "`".data := by
        rw [List.append_assoc]
        rfl
      have e2 : (c :: m) ++ "``".data = ((c :: m) ++ "``".data) ++ [] := by simp
      rw [e1,
        startsWithSub_congr_append ("```".data) ((c :: m) ++ "``".data) ("`".data) [] hlen,
        ← e2]
      exact hh.1
    have ih' := ih hh.2
    simp only [List.cons_append, List.append_eq] at hsw
    simp [List.cons_append, findSubIdx, List.append_eq, hsw, ih', List.length_cons]

theorem findSubIdx_char (c : Char) :
    ∀ (a b : Str), c ∉ a → startsWithSub b [c] = true →
    findSubIdx (a ++ b) [c] = some a.length := by
  intro a
  induction a with
  | nil =>
    intro b _ hb
    cases b with
    | nil => simp [startsWithSub] at hb
    | cons x b =>
      simp only [List.nil_append, findSubIdx, hb]
      rfl
  | cons x a ih =>
    intro b hc hb
    have hx : (x = c) = False := by
      simp only [List.mem_cons, not_or] at hc
      simpa [eq_comm] using hc.1
    simp only [List.cons_append, findSubIdx, startsWithSub, hx, decide_False,
      Bool.false_and, Bool.false_eq_true, if_false, List.append_eq]
    rw [ih b (by simp only [List.mem_cons, not_or] at hc; exact hc.2) hb]
    simp

theorem take_append_len_add (x : Str) (y : Str) (k : Nat) :
    (x ++ y).take (x.length + k) = x ++ y.take k := by
  induction x with
  | nil => simp
  | cons c x ih => simp [List.take_cons, Nat.succ_add, ih]

theorem pySlice_natCast (l : Str) (a b : Nat) (ha : a ≤ l.length) (hb : b ≤ l.length) :
    pySlice l ((a : Nat) : Int) ((b : Nat) : Int) = (l.drop a).take (b - a) := by
  simp only [pySlice]
  rw [if_neg (by omega : ¬((a : Int) < 0)), if_neg (by omega : ¬((b : Int) < 0))]
  rw [min_eq_left (by exact_mod_cast hb), min_eq_left (by exact_mod_cast ha)]
  rw [Int.toNat_natCast]
  congr 1
  omega

theorem pyStrip_append_newline (s' : Str)
    (h4 : pyStrip (lb :: s') = lb :: s') :
    pyStrip ((lb :: s') ++ ['\n']) = lb :: s' := by
  have hlb : isSpaceChar lb = false := rfl
  have hnl : isSpaceChar '\n' = true := rfl
  have hd : List.dropWhile isSpaceChar (lb :: s') = lb :: s' := by
    simp [List.dropWhile_cons, hlb]
  have h4' : ((lb :: s').reverse.dropWhile isSpaceChar).reverse = lb :: s' := by
    have h := h4
    unfold pyStrip at h
    rwa [hd] at h
  have h4'' : (lb :: s').reverse.dropWhile isSpaceChar = (lb :: s').reverse := by
    have h := congrArg List.reverse h4'
    rwa [List.reverse_reverse] at h
  unfold pyStrip
  rw [show (lb :: s') ++ ['\n'] = lb :: (s' ++ ['\n']) from rfl]
  rw [show List.dropWhile isSpaceChar (lb :: (s' ++ ['\n'])) = lb :: (s' ++ ['\n']) from by
    simp [List.dropWhile_cons, hlb]]
  have e1 : (lb :: (s' ++ ['\n'])).reverse = '\n' :: (lb :: s').reverse := by
    simp [List.reverse_cons]
  rw [e1, List.dropWhile_cons]
  rw [if_pos (by rw [hnl])]
  rw [h4'', List.reverse_reverse]

theorem drop_append_len (x y : Str) : (x ++ y).drop x.length = y := by
  induction x with
  | nil => simp
  | cons c x ih => simpa using ih

theorem fenceBoundClean_fenceWrap (s' : Str) (j : Json)
    (h1 : jsonLoads (lb :: s') = some j)
    (h2 : containsSub ("json\n".data ++ (lb :: s') ++ "\n``".data) ("```".data) = false)
    (h4 : pyStrip (lb :: s') = lb :: s') :
    jsonLoads (fenceBoundClean (fenceWrap (lb :: s'))) = some j := by
  have efw : fenceWrap (lb :: s') =
      "```".data ++ ("json\n".data ++ ((lb :: s') ++ "\n```".data)) := by
    rw [fenceWrap, show ("```json\n".data : Str) = "```".data ++ "json\n".data from rfl]
    simp [List.append_assoc]
  have hA : startsWithSub (fenceWrap (lb :: s')) ("```".data) = true := by
    rw [efw]; exact startsWithSub_append_self _ _
  have hdrop : (fenceWrap (lb :: s')).drop 3 =
      "json\n".data ++ ((lb :: s') ++ "\n```".data) := by
    rw [efw, show (3 : Nat) = ("```".data : Str).length from rfl]
    exact drop_append_len _ _
  have hm : "json\n".data ++ ((lb :: s') ++ "\n```".data) =
      ("json\n".data ++ (lb :: s') ++ "\n".data) ++ "```".data := by
    rw [show ("\n```".data : Str) = "\n".data ++ "```".data from rfl]
    simp [List.append_assoc]
  have h2' : containsSub (("json\n".data ++ (lb :: s') ++ "\n".data) ++ "``".data)
      ("```".data) = false := by
    have e : ("json\n".data ++ (lb :: s') ++ "\n".data) ++ "``".data =
        "json\n".data ++ (lb :: s') ++ "\n``".data := by
      rw [show ("\n``".data : Str) = "\n".data ++ "``".data from rfl]
      simp [List.append_assoc]
    rw [e]
    exact h2
  have hfind : findSubIdx ((fenceWrap (lb :: s')).drop 3) ("```".data) =
      some (("json\n".data ++ (lb :: s') ++ "\n".data).length) := by
    rw [hdrop, hm]
    exact findSubIdx_fence _ h2'
  have hmlen : ("json\n".data ++ (lb :: s') ++ "\n".data).length = s'.length + 7 := by
    have e5 : ("json\n".data : Str).length = 5 := rfl
    have e1 : ("\n".data : Str).length = 1 := rfl
    rw [List.length_append, List.length_append, e5, e1, List.length_cons]
    omega
  have hB : pyFind (fenceWrap (lb :: s')) ("```".data) 3 = ((s'.length + 10 : Nat) : Int) := by
    unfold pyFind
    rw [hfind, hmlen]
  have hC : pyFind (fenceWrap (lb :: s')) [lb] 0 = ((8 : Nat) : Int) := by
    unfold pyFind
    rw [List.drop_zero]
    rw [show fenceWrap (lb :: s') = "```json\n".data ++ ((lb :: s') ++ "\n```".data) from by
      rw [fenceWrap]; simp [List.append_assoc]]
    rw [findSubIdx_char lb ("```json\n".data) ((lb :: s') ++ "\n```".data) (by decide)
      (by simp [startsWithSub])]
    rfl
  have htl : (fenceWrap (lb :: s')).length = s'.length + 13 := by
    rw [fenceWrap]
    have e8 : ("```json\n".data : Str).length = 8 := rfl
    have e4 : ("\n```".data : Str).length = 4 := rfl
    rw [List.length_append, List.length_append, e8, e4, List.length_cons]
    omega
  have hslice : pySlice (fenceWrap (lb :: s')) ((8 : Nat) : Int) ((s'.length + 10 : Nat) : Int) =
      (lb :: s') ++ ['\n'] := by
    rw [pySlice_natCast _ 8 (s'.length + 10) (by omega) (by omega)]
    have hd8 : (fenceWrap (lb :: s')).drop 8 = (lb :: s') ++ "\n```".data := by
      rw [show fenceWrap (lb :: s') = "```json\n".data ++ ((lb :: s') ++ "\n```".data) from by
        rw [fenceWrap]; simp [List.append_assoc]]
      rw [show (8 : Nat) = ("```json\n".data : Str).length from rfl]
      exact drop_append_len _ _
    rw [hd8]
    rw [show s'.length + 10 - 8 = (lb :: s').length + 1 from by
      rw [List.length_cons]; omega]
    rw [take_append_len_add]
    rfl
  unfold fenceBoundClean
  simp only [hA, if_true, hB, hC]
  have hpos : ((s'.length + 10 : Nat) : Int) > 0 := by
    exact_mod_cast (by omega : 0 < s'.length + 10)
  rw [if_pos hpos]
  rw [hslice, pyStrip_append_newline s' h4]
  exact h1

/-- C6 counterexample: the object text of `objBacktickStr` is well-formed
JSON whose strict parse succeeds, but wrapped in fences the normalizer
bounds the region at the fence marker inside the string value and the
recovered text no longer parses — so fence-stripping does not recover the
strict parse of the unfenced text for every well-formed fenced object. -/
theorem C6_counterexample :
    jsonLoads objBacktickStr =
      some (Json.obj [("a".data, Json.str ("```".data))]) ∧
    jsonLoads (fenceBoundClean (fenceWrap objBacktickStr)) = none := ⟨rfl, rfl⟩

/-- C6, amended: for every JSON object text that contains no fence marker
(also when extended by its closing-fence context), starts with a brace and
has no surrounding whitespace, the fence-stripping recovers exactly the
object that strict parsing of the unfenced text gives; in particular the
fenced `{"a":1}` parses to `{a: 1}` on the explain path and on the extract
path. -/
theorem C6_fence_round_trip :
    (∀ (s : Str) (j : Json),
      jsonLoads s = some j →
      containsSub ("json\n".data ++ s ++ "\n``".data) ("```".data) = false →
      s.head? = some lb →
      pyStrip s = s →
      jsonLoads (fenceBoundClean (fenceWrap s)) = some j) ∧
    jsonLoads (fenceBoundClean (fenceWrap objAOne)) =
      some (Json.obj [("a".data, Json.num 1)]) ∧
    extractFromResponse (.ok (fenceWrap objAOne)) =
      Json.obj [("a".data, Json.num 1)] := by
  refine ⟨?_, rfl, rfl⟩
  intro s j h1 h2 h3 h4
  cases s with
  | nil => simp at h3
  | cons a s' =>
    have ha : a = lb := by simpa using h3
    subst ha
    exact fenceBoundClean_fenceWrap s' j h1 h2 h4

/-- C6 witness for the universal conjunct, at the scenario object. -/
theorem C6_witness :
    jsonLoads (fenceBoundClean (fenceWrap objAOne)) =
      some (Json.obj [("a".data, Json.num 1)]) :=
  C6_fence_round_trip.1 objAOne _ rfl rfl rfl rfl

unseal Rat.add Rat.inv Rat.mul Rat.sub in
/-- C9 (confirmed): the fallback performance prediction for a parameter
named `learning_rate` with value `0.01` is classified continuous (the name
contains "rate"), and each of its series contains a data point whose x
coordinate is exactly the string "0.01". -/
theorem C9_default_performance_current_value :
    (generateDefaultPerformanceData ("learning_rate".data) ("0.01".data)).parameterType =
      "continuous".data ∧
    ((generateDefaultPerformanceData ("learning_rate".data) ("0.01".data)).series.all
      (fun s => s.data.any (fun p => decide (p.x = "0.01".data)))) = true := by
  constructor
  · decide
  · decide

/-- C10 (confirmed): on the non-exception path the explain route's response
has the three fixed template strings, truncates a list-valued
alternativeValues to at most 3 entries, replaces a non-list one by
["10","100","500"], and builds definition / currentValueAnalysis from
templates keeping at most the first 200 resp. 100 characters of the
result's strings. -/
theorem C10_route_templates (name value : Str) (explan : Json) :
    jsonLookup (appExplainRoute name value explan) ("bestPractices".data) =
      some (.str ("Use cross-validation to find optimal value".data)) ∧
    jsonLookup (appExplainRoute name value explan) ("tradeOffs".data) =
      some (.str ("Balance between model complexity and performance".data)) ∧
    jsonLookup (appExplainRoute name value explan) ("impactVisualization".data) =
      some (.str ("Higher values may increase training time but improve accuracy".data)) ∧
    (∀ l, dictGet? (routeNestedFix (routeResult name value explan)) ("alternativeValues".data) =
        some (.arr l) →
      jsonLookup (appExplainRoute name value explan) ("alternativeValues".data) =
        some (.arr (l.take 3)) ∧ (l.take 3).length ≤ 3) ∧
    ((∀ l, dictGet? (routeNestedFix (routeResult name value explan)) ("alternativeValues".data) ≠
        some (.arr l)) →
      jsonLookup (appExplainRoute name value explan) ("alternativeValues".data) =
        some (.arr [.str "10".data, .str "100".data, .str "500".data])) ∧
    (∀ s, dictGet? (routeNestedFix (routeResult name value explan)) ("definition".data) =
        some (.str s) →
      jsonLookup (appExplainRoute name value explan) ("definition".data) =
        some (.str ("Definition of ".data ++ name ++ ": ".data ++ s.take 200))) ∧
    (∀ s, dictGet? (routeNestedFix (routeResult name value explan)) ("currentValueAnalysis".data) =
        some (.str s) →
      jsonLookup (appExplainRoute name value explan) ("currentValueAnalysis".data) =
        some (.str ("Value ".data ++ value ++ " is ".data ++ s.take 100))) := by
  refine ⟨rfl, rfl, rfl, ?_, ?_, ?_, ?_⟩
  · intro l hl
    constructor
    · have h : jsonLookup (appExplainRoute name value explan) ("alternativeValues".data) =
          some (match dictGet? (routeNestedFix (routeResult name value explan))
              ("alternativeValues".data) with
            | some (.arr l) => Json.arr (l.take 3)
            | _ => Json.arr [.str "10".data, .str "100".data, .str "500".data]) := rfl
      rw [h, hl]
    · simp [List.length_take]
  · intro hne
    have h : jsonLookup (appExplainRoute name value explan) ("alternativeValues".data) =
        some (match dictGet? (routeNestedFix (routeResult name value explan))
            ("alternativeValues".data) with
          | some (.arr l) => Json.arr (l.take 3)
          | _ => Json.arr [.str "10".data, .str "100".data, .str "500".data]) := rfl
    rw [h]
    rcases hd : dictGet? (routeNestedFix (routeResult name value explan))
        ("alternativeValues".data) with _ | j
    · rfl
    · cases j with
      | arr l => exact absurd hd (hne l)
      | null => rfl
      | bool b => rfl
      | num q => rfl
      | str s => rfl
      | obj fs => rfl
  · intro s hs
    have h : jsonLookup (appExplainRoute name value explan) ("definition".data) =
        some (.str ("Definition of ".data ++ name ++ ": ".data ++
          (match dictGet? (routeNestedFix (routeResult name value explan))
              ("definition".data) with
            | some (.str s) => s.take 200
            | _ => "Parameter definition".data))) := rfl
    rw [h, hs]
  · intro s hs
    have h : jsonLookup (appExplainRoute name value explan) ("currentValueAnalysis".data) =
        some (.str ("Value ".data ++ value ++ " is ".data ++
          (match dictGet? (routeNestedFix (routeResult name value explan))
              ("currentValueAnalysis".data) with
            | some (.str s) => s.take 100
            | _ => "appropriate for most uses".data))) := rfl
    rw [h, hs]

/-- C10 witness at two concrete explanations: one with a four-entry list
and string fields, one lacking alternativeValues altogether. -/
theorem C10_witness :
    jsonLookup (appExplainRoute ("n".data) ("v".data)
        (Json.obj [("definition".data, Json.str ("d".data)),
          ("currentValueAnalysis".data, Json.str ("c".data)),
          ("alternativeValues".data,
            Json.arr [Json.str "1".data, Json.str "2".data, Json.str "3".data,
              Json.str "4".data])]))
      ("alternativeValues".data) =
      some (Json.arr [Json.str "1".data, Json.str "2".data, Json.str "3".data]) ∧
    jsonLookup (appExplainRoute ("n".data) ("v".data)
        (Json.obj [("importance".data, Json.str ("x".data))]))
      ("alternativeValues".data) =
      some (Json.arr [Json.str "10".data, Json.str "100".data, Json.str "500".data]) ∧
    jsonLookup (appExplainRoute ("n".data) ("v".data)
        (Json.obj [("definition".data, Json.str ("d".data)),
          ("currentValueAnalysis".data, Json.str ("c".data)),
          ("alternativeValues".data,
            Json.arr [Json.str "1".data, Json.str "2".data, Json.str "3".data,
              Json.str "4".data])]))
      ("definition".data) =
      some (Json.str ("Definition of n: d".data)) := by
  refine ⟨?_, ?_, ?_⟩
  · exact ((C10_route_templates ("n".data) ("v".data)
      (Json.obj [("definition".data, Json.str ("d".data)),
        ("currentValueAnalysis".data, Json.str ("c".data)),
        ("alternativeValues".data,
          Json.arr [Json.str "1".data, Json.str "2".data, Json.str "3".data,
            Json.str "4".data])])).2.2.2.1
      [Json.str "1".data, Json.str "2".data, Json.str "3".data, Json.str "4".data] rfl).1
  · exact (C10_route_templates ("n".data) ("v".data)
      (Json.obj [("importance".data, Json.str ("x".data))])).2.2.2.2.1
      (fun l h => Option.noConfusion h)
  · exact (C10_route_templates ("n".data) ("v".data)
      (Json.obj [("definition".data, Json.str ("d".data)),
        ("currentValueAnalysis".data, Json.str ("c".data)),
        ("alternativeValues".data,
          Json.arr [Json.str "1".data, Json.str "2".data, Json.str "3".data,
            Json.str "4".data])])).2.2.2.2.2.1 ("d".data) rfl

/-- C7 counterexample: with an explanation record lacking
`alternativeValues` the route's response carries
`alternativeValues = ["10","100","500"]`, whose entries are plain strings
possessing none of the four AlternativeValue fields. -/
theorem C7_counterexample :
    jsonLookup (appExplainRoute ("n".data) ("v".data)
        (Json.obj [("importance".data, Json.str ("x".data))]))
      ("alternativeValues".data) =
      some (Json.arr [Json.str "10".data, Json.str "100".data, Json.str "500".data]) ∧
    (∀ fs : List (Str × Json), Json.str ("10".data) ≠ Json.obj fs) :=
  ⟨rfl, fun _ h => Json.noConfusion h⟩

/-- C7, amended: the route's response always carries exactly the seven
keys, its six string-valued fields are non-empty and alternativeValues is a
list of at most 3 entries (which need not be objects with the four
fields); inside `explain_hyperparameter`, a missing `complexity` on an
object entry of `alternativeValues` is backfilled positionally
(`i < n/3` basic, `i < 2n/3` intermediate, else advanced), and this
backfill happens only when the first parse yields a dict with an
`alternativeValues` list — a record obtained through the retry is returned
without any backfilling, and a first parse yielding a number, boolean or
null raises a `TypeError` at the line-306 membership test instead of
succeeding. -/
theorem C7_fields_and_backfill :
    (∀ (n v : Str) (e : Json),
      (jsonFields (appExplainRoute n v e)).map Prod.fst =
        ["importance".data, "definition".data, "currentValueAnalysis".data,
         "alternativeValues".data, "bestPractices".data, "tradeOffs".data,
         "impactVisualization".data] ∧
      (∃ s, jsonLookup (appExplainRoute n v e) ("importance".data) =
        some (.str s) ∧ s ≠ []) ∧
      (∃ s, jsonLookup (appExplainRoute n v e) ("definition".data) =
        some (.str s) ∧ s ≠ []) ∧
      (∃ s, jsonLookup (appExplainRoute n v e) ("currentValueAnalysis".data) =
        some (.str s) ∧ s ≠ []) ∧
      (∃ l, jsonLookup (appExplainRoute n v e) ("alternativeValues".data) =
        some (.arr l) ∧ l.length ≤ 3) ∧
      (∃ s, jsonLookup (appExplainRoute n v e) ("bestPractices".data) =
        some (.str s) ∧ s ≠ []) ∧
      (∃ s, jsonLookup (appExplainRoute n v e) ("tradeOffs".data) =
        some (.str s) ∧ s ≠ []) ∧
      (∃ s, jsonLookup (appExplainRoute n v e) ("impactVisualization".data) =
        some (.str s) ∧ s ≠ [])) ∧
    (∀ (alts : List Json) (i : Nat) (fs : List (Str × Json)),
      i < alts.length →
      alts.getD i Json.null = Json.obj fs →
      dictGet? fs ("complexity".data) = none →
      (backfillAlts alts).getD i Json.null =
        Json.obj (dictSet fs ("complexity".data)
          (Json.str (if 3 * i < alts.length then "basic".data
            else if 3 * i < 2 * alts.length then "intermediate".data
            else "advanced".data)))) ∧
    (∀ (oracle : PromptKind → Except Str Str) (t0 r0 : Str) (j : Json),
      oracle .main = .ok t0 →
      jsonLoads (fenceBoundClean t0) = none →
      oracle .retry = .ok r0 →
      jsonLoads (fenceBoundClean r0) = some j →
      (explainHyperparameter oracle).1 = .ok j) ∧
    (∀ (oracle : PromptKind → Except Str Str) (t0 : Str) (fs : List (Str × Json))
        (alts : List Json),
      oracle .main = .ok t0 →
      jsonLoads (fenceBoundClean t0) = some (Json.obj fs) →
      dictGet? fs ("alternativeValues".data) = some (Json.arr alts) →
      (explainHyperparameter oracle).1 =
        .ok (Json.obj (dictSet fs ("alternativeValues".data)
          (Json.arr (backfillAlts alts))))) ∧
    (∀ (oracle : PromptKind → Except Str Str) (t0 : Str) (q : ℚ),
      oracle .main = .ok t0 →
      jsonLoads (fenceBoundClean t0) = some (Json.num q) →
      (explainHyperparameter oracle).1 = .error .typeError) := by
  refine ⟨?_, ?_, ?_, ?_, ?_⟩
  · intro n v e
    refine ⟨rfl, ⟨_, rfl, ?_⟩, ⟨_, rfl, ?_⟩, ⟨_, rfl, ?_⟩, ?_, ⟨_, rfl, ?_⟩,
      ⟨_, rfl, ?_⟩, ⟨_, rfl, ?_⟩⟩
    · simp
    · simp
    · simp
    · rcases hd : dictGet? (routeNestedFix (routeResult n v e)) ("alternativeValues".data)
        with _ | j
      · refine ⟨[Json.str "10".data, Json.str "100".data, Json.str "500".data], ?_, by simp⟩
        have h : jsonLookup (appExplainRoute n v e) ("alternativeValues".data) =
            some (match dictGet? (routeNestedFix (routeResult n v e))
                ("alternativeValues".data) with
              | some (.arr l) => Json.arr (l.take 3)
              | _ => Json.arr [.str "10".data, .str "100".data, .str "500".data]) := rfl
        rw [h, hd]
      · have h : jsonLookup (appExplainRoute n v e) ("alternativeValues".data) =
            some (match dictGet? (routeNestedFix (routeResult n v e))
                ("alternativeValues".data) with
              | some (.arr l) => Json.arr (l.take 3)
              | _ => Json.arr [.str "10".data, .str "100".data, .str "500".data]) := rfl
        cases j with
        | arr l =>
          refine ⟨l.take 3, ?_, by simp [List.length_take]⟩
          rw [h, hd]
        | null =>
          exact ⟨[Json.str "10".data, Json.str "100".data, Json.str "500".data],
            by rw [h, hd], by simp⟩
        | bool b =>
          exact ⟨[Json.str "10".data, Json.str "100".data, Json.str "500".data],
            by rw [h, hd], by simp⟩
        | num q =>
          exact ⟨[Json.str "10".data, Json.str "100".data, Json.str "500".data],
            by rw [h, hd], by simp⟩
        | str s =>
          exact ⟨[Json.str "10".data, Json.str "100".data, Json.str "500".data],
            by rw [h, hd], by simp⟩
        | obj fs =>
          exact ⟨[Json.str "10".data, Json.str "100".data, Json.str "500".data],
            by rw [h, hd], by simp⟩
    · simp
    · simp
    · simp
  · intro alts i fs hi hobj hc
    have halts : alts[i]? = some (Json.obj fs) := by
      rw [List.getD_eq_getElem?_getD, List.getElem?_eq_getElem hi] at hobj
      rw [List.getElem?_eq_getElem hi]
      simpa using hobj
    have hlen : i < (backfillAlts alts).length := by
      rw [backfillAlts, List.length_mapIdx]
      exact hi
    rw [List.getD_eq_getElem?_getD, backfillAlts, List.getElem?_mapIdx]
    rw [show alts[i]? = some (Json.obj fs) from halts]
    simp only [Option.map_some', Option.getD_some, hc]
    rfl
  · intro oracle t0 r0 j h0 h1 h2 h3
    unfold explainHyperparameter
    simp only [h0, h1, h2, h3]
  · intro oracle t0 fs alts h0 h1 h2
    unfold explainHyperparameter explainAlternativesFix
    simp only [h0, h1, h2]
  · intro oracle t0 q h0 h1
    unfold explainHyperparameter explainAlternativesFix
    simp only [h0, h1]

/-- C7 witness: positional backfill at index 1 of a four-entry list, a
retry-path record returned unmodified, a first-parse dict record passed
through the alternativeValues backfill, and a numeric first parse raising
the `TypeError`. -/
theorem C7_witness :
    (backfillAlts [Json.obj [("value".data, Json.str "1".data)],
        Json.obj [("value".data, Json.str "2".data)],
        Json.obj [("value".data, Json.str "3".data)],
        Json.obj [("value".data, Json.str "4".data)]]).getD 1 Json.null =
      Json.obj [("value".data, Json.str "2".data),
        ("complexity".data, Json.str "basic".data)] ∧
    (explainHyperparameter (fun k => match k with
      | .main => .ok ("nope".data)
      | .retry => .ok ([lb] ++ "\"importance\":\"i\"".data ++ [rb]))).1 =
      .ok (Json.obj [("importance".data, Json.str "i".data)]) ∧
    (explainHyperparameter (fun _ =>
        .ok ([lb] ++ "\"alternativeValues\":[".data ++ [lb, rb] ++ "]".data ++ [rb]))).1 =
      .ok (Json.obj [("alternativeValues".data,
        Json.arr [Json.obj [("complexity".data, Json.str "basic".data)]])]) ∧
    (explainHyperparameter (fun _ => .ok ("7".data))).1 = .error .typeError := by
  refine ⟨?_, ?_, ?_, ?_⟩
  · exact C7_fields_and_backfill.2.1 _ 1 [("value".data, Json.str "2".data)]
      (by decide) rfl rfl
  · exact C7_fields_and_backfill.2.2.1 _ ("nope".data)
      ([lb] ++ "\"importance\":\"i\"".data ++ [rb]) _ rfl rfl rfl rfl
  · exact C7_fields_and_backfill.2.2.2.1 _
      ([lb] ++ "\"alternativeValues\":[".data ++ [lb, rb] ++ "]".data ++ [rb])
      [("alternativeValues".data, Json.arr [Json.obj []])] [Json.obj []] rfl rfl rfl
  · exact C7_fields_and_backfill.2.2.2.2 _ ("7".data) 7 rfl rfl

/-! ### Matrix lemmas for the correlation fallback -/

theorem getD_set_self {α : Type} (x d : α) :
    ∀ (l : List α) (i : Nat), i < l.length → (l.set i x).getD i d = x := by
  intro l
  induction l with
  | nil => intro i h; simp at h
  | cons a l ih =>
    intro i h
    cases i with
    | zero => rfl
    | succ i =>
      simp only [List.set_cons_succ, List.getD_cons_succ]
      exact ih i (by simpa using h)

theorem getD_set_ne {α : Type} (x d : α) :
    ∀ (l : List α) (i a : Nat), i ≠ a → (l.set i x).getD a d = l.getD a d := by
  intro l
  induction l with
  | nil => intro i a _; simp
  | cons b l ih =>
    intro i a h
    cases i with
    | zero =>
      cases a with
      | zero => exact absurd rfl h
      | succ a => simp [List.getD_cons_succ]
    | succ i =>
      cases a with
      | zero => rfl
      | succ a =>
        simp only [List.set_cons_succ, List.getD_cons_succ]
        exact ih i a (by omega)

theorem getD_mem {α : Type} (l : List α) (i : Nat) (d : α) (h : i < l.length) :
    l.getD i d ∈ l := by
  rw [List.getD_eq_getElem?_getD, List.getElem?_eq_getElem h]
  simp [List.getElem_mem]

theorem getD_replicate {α : Type} (x d : α) :
    ∀ (k i : Nat), (List.replicate k x).getD i d = if i < k then x else d := by
  intro k
  induction k with
  | zero => intro i; simp
  | succ k ih =>
    intro i
    cases i with
    | zero => simp [List.replicate_succ]
    | succ i =>
      simp only [List.replicate_succ, List.getD_cons_succ, ih]
      by_cases h : i < k <;> simp [h, Nat.succ_lt_succ_iff]

theorem setEntry_wf {n : Nat} (m : List (List ℚ)) (i j : Nat) (v : ℚ)
    (hm : m.length = n) (hr : ∀ row ∈ m, row.length = n) (hi : i < n) :
    (setEntry m i j v).length = n ∧ ∀ row ∈ setEntry m i j v, row.length = n := by
  constructor
  · simp [setEntry, hm]
  · intro row hrow
    unfold setEntry at hrow
    rcases List.mem_or_eq_of_mem_set hrow with h | h
    · exact hr row h
    · subst h
      rw [List.length_set]
      exact hr _ (getD_mem m i [] (by omega))

theorem entryAt_setEntry {n : Nat} (m : List (List ℚ)) (i j : Nat) (v : ℚ)
    (hm : m.length = n) (hr : ∀ row ∈ m, row.length = n) (hi : i < n) (hj : j < n)
    (a b : Nat) :
    entryAt (setEntry m i j v) a b = if a = i ∧ b = j then v else entryAt m a b := by
  unfold entryAt setEntry
  by_cases hai : a = i
  · subst hai
    rw [getD_set_self _ _ m a (by omega)]
    by_cases hbj : b = j
    · subst hbj
      rw [getD_set_self _ _ (m.getD a []) b
        (by rw [hr _ (getD_mem m a [] (by omega))]; omega)]
      simp
    · rw [getD_set_ne _ _ (m.getD a []) j b (fun h => hbj h.symm)]
      simp [hbj]
  · rw [getD_set_ne _ _ m i a (fun h => hai h.symm)]
    simp [hai]

theorem diag_fold (n : Nat) :
    ∀ (ps : List Nat) (m : List (List ℚ)),
    m.length = n → (∀ row ∈ m, row.length = n) → (∀ p ∈ ps, p < n) →
    (ps.foldl (fun m i => setEntry m i i 1) m).length = n ∧
    (∀ row ∈ ps.foldl (fun m i => setEntry m i i 1) m, row.length = n) ∧
    (∀ a b, entryAt (ps.foldl (fun m i => setEntry m i i 1) m) a b =
      if a = b ∧ a ∈ ps then 1 else entryAt m a b) := by
  intro ps
  induction ps with
  | nil =>
    intro m hm hr _
    refine ⟨hm, hr, ?_⟩
    intro a b
    simp
  | cons p ps ih =>
    intro m hm hr hp
    have hpn : p < n := hp p (by simp)
    have hw := setEntry_wf (n := n) m p p 1 hm hr hpn
    have hrec := ih (setEntry m p p 1) hw.1 hw.2 (fun q hq => hp q (by simp [hq]))
    refine ⟨hrec.1, hrec.2.1, ?_⟩
    intro a b
    simp only [List.foldl_cons]
    rw [hrec.2.2 a b, entryAt_setEntry (n := n) m p p 1 hm hr hpn hpn a b]
    by_cases hab : a = b
    · subst hab
      by_cases hps : a ∈ ps
      · simp [hps]
      · by_cases hap : a = p
        · subst hap; simp [hps]
        · simp [hps, hap]
    · simp only [hab, false_and, if_false]
      rw [if_neg (by omega : ¬(a = p ∧ b = p))]

theorem mem_pairList (n : Nat) (p : Nat × Nat) :
    p ∈ pairList n ↔ p.1 < p.2 ∧ p.2 < n := by
  obtain ⟨x, y⟩ := p
  simp only [pairList, List.mem_flatMap, List.mem_map, List.mem_range,
    List.mem_range'_1, Prod.mk.injEq]
  constructor
  · rintro ⟨i, hi, j, ⟨hj1, hj2⟩, rfl, rfl⟩
    omega
  · rintro ⟨h1, h2⟩
    exact ⟨x, by omega, y, ⟨by omega, by omega⟩, rfl, rfl⟩

theorem corr_fold (names : List Str) (noise : Nat → Nat → ℚ) (n : Nat) :
    ∀ (ps : List (Nat × Nat)) (m : List (List ℚ)) (es : List CorrExpl),
    m.length = n → (∀ row ∈ m, row.length = n) →
    (∀ p ∈ ps, p.1 < n ∧ p.2 < n ∧ p.1 < p.2) →
    (ps.foldl (corrStep names noise) (m, es)).1.length = n ∧
    (∀ row ∈ (ps.foldl (corrStep names noise) (m, es)).1, row.length = n) ∧
    (∀ a b, entryAt (ps.foldl (corrStep names noise) (m, es)).1 a b =
      if (min a b, max a b) ∈ ps then corrValue names noise (min a b) (max a b)
      else entryAt m a b) ∧
    (ps.foldl (corrStep names noise) (m, es)).2 =
      es ++ ps.filterMap (fun p =>
        if |corrValue names noise p.1 p.2| > 3/10 then
          some (corrExplEntry names noise p.1 p.2) else none) := by
  intro ps
  induction ps with
  | nil =>
    intro m es hm hr _
    refine ⟨hm, hr, ?_, by simp⟩
    intro a b
    simp
  | cons p ps ih =>
    intro m es hm hr hp
    have hpb := hp p (by simp)
    have hw1 := setEntry_wf (n := n) m p.1 p.2 (corrValue names noise p.1 p.2)
      hm hr hpb.1
    have hw2 := setEntry_wf (n := n) (setEntry m p.1 p.2 (corrValue names noise p.1 p.2))
      p.2 p.1 (corrValue names noise p.1 p.2) hw1.1 hw1.2 hpb.2.1
    have hrec := ih (corrStep names noise (m, es) p).1 (corrStep names noise (m, es) p).2
      hw2.1 hw2.2 (fun q hq => hp q (by simp [hq]))
    simp only [List.foldl_cons]
    refine ⟨hrec.1, hrec.2.1, ?_, ?_⟩
    · intro a b
      rw [hrec.2.2.1 a b]
      have hstep : entryAt (corrStep names noise (m, es) p).1 a b =
          if (min a b, max a b) = p then corrValue names noise p.1 p.2
          else entryAt m a b := by
        show entryAt (setEntry (setEntry m p.1 p.2 (corrValue names noise p.1 p.2))
          p.2 p.1 (corrValue names noise p.1 p.2)) a b = _
        rw [entryAt_setEntry (n := n) _ p.2 p.1 _ hw1.1 hw1.2 hpb.2.1 hpb.1 a b,
          entryAt_setEntry (n := n) m p.1 p.2 _ hm hr hpb.1 hpb.2.1 a b]
        by_cases h1 : a = p.2 ∧ b = p.1
        · rw [if_pos h1, if_pos]
          obtain ⟨ha, hb⟩ := h1
          subst ha; subst hb
          have : p.1 < p.2 := hpb.2.2
          ext <;> simp <;> omega
        · rw [if_neg h1]
          by_cases h2 : a = p.1 ∧ b = p.2
          · rw [if_pos h2, if_pos]
            obtain ⟨ha, hb⟩ := h2
            subst ha; subst hb
            have : p.1 < p.2 := hpb.2.2
            ext <;> simp <;> omega
          · rw [if_neg h2, if_neg]
            intro hc
            have hab : a ≠ b := by
              intro hab
              subst hab
              have h3 : p.1 = p.2 := by
                have := congrArg Prod.fst hc
                have := congrArg Prod.snd hc
                simp at *
                omega
              omega
            have hc1 := congrArg Prod.fst hc
            have hc2 := congrArg Prod.snd hc
            simp at hc1 hc2
            rcases Nat.lt_or_ge a b with hlt | hge
            · exact h2 ⟨by omega, by omega⟩
            · exact h1 ⟨by omega, by omega⟩
      rw [hstep]
      by_cases hmem : (min a b, max a b) ∈ ps
      · rw [if_pos hmem, if_pos (by simp [hmem])]
      · rw [if_neg hmem]
        by_cases heq : (min a b, max a b) = p
        · rw [if_pos heq, if_pos (by simp [heq])]
          rw [show p.1 = min a b from by rw [← heq],
            show p.2 = max a b from by rw [← heq]]
        · rw [if_neg heq, if_neg (by simp [List.mem_cons, hmem, heq])]
    · rw [hrec.2.2.2]
      show (if |corrValue names noise p.1 p.2| > 3/10 then
          es ++ [corrExplEntry names noise p.1 p.2] else es) ++ _ = _
      rw [List.filterMap_cons]
      by_cases hc : |corrValue names noise p.1 p.2| > 3/10
      · rw [if_pos hc, if_pos hc]
        simp
      · rw [if_neg hc, if_neg hc]

unseal Rat.add Rat.inv Rat.mul Rat.sub in
theorem corrValue_bounds (names : List Str) (noise : Nat → Nat → ℚ)
    (hn : ∀ i j, -(1/5) ≤ noise i j ∧ noise i j ≤ 1/5) (i j : Nat) :
    -1 ≤ corrValue names noise i j ∧ corrValue names noise i j ≤ 1 := by
  have hall : ∀ x ∈ commonPairs, -1 ≤ x.2 ∧ x.2 ≤ 1 := by decide
  have hb : -1 ≤ corrTable (names.getD i []) (names.getD j []) ∧
      corrTable (names.getD i []) (names.getD j []) ≤ 1 := by
    unfold corrTable
    cases hf : commonPairs.find? (fun p =>
        (containsSub p.1.1 (lowerStr (names.getD i [])) &&
          containsSub p.1.2 (lowerStr (names.getD j []))) ||
        (containsSub p.1.2 (lowerStr (names.getD i [])) &&
          containsSub p.1.1 (lowerStr (names.getD j [])))) with
    | none => norm_num
    | some p =>
      have hp := List.mem_of_find?_eq_some hf
      simpa using hall p hp
  unfold corrValue
  dsimp only
  split_ifs with hz
  · have h1 := (hn i j).1
    have h2 := (hn i j).2
    constructor <;> linarith
  · exact hb

/-- C8 (confirmed): the fallback correlation record has a square matrix of
side `len(parameters)`, symmetric, with unit diagonal and every
off-diagonal entry in [-1, 1] whenever the noise draws stay in
[-0.2, 0.2]; and its explanation list contains exactly one entry per pair
with `abs(corr) > 0.3`, with strength "high" above 0.7, "medium" above
0.5, else "low", and direction chosen by the sign. -/
theorem C8_fallback_correlation_invariants
    (parameters : List (Str × Json)) (noise : Nat → Nat → ℚ)
    (hn : ∀ i j, -(1/5) ≤ noise i j ∧ noise i j ≤ 1/5) :
    (generateFallbackCorrelationData parameters noise).matrix.length =
      parameters.length ∧
    (∀ row ∈ (generateFallbackCorrelationData parameters noise).matrix,
      row.length = parameters.length) ∧
    (∀ i j, entryAt (generateFallbackCorrelationData parameters noise).matrix i j =
      entryAt (generateFallbackCorrelationData parameters noise).matrix j i) ∧
    (∀ i, i < parameters.length →
      entryAt (generateFallbackCorrelationData parameters noise).matrix i i = 1) ∧
    (∀ i j, i < parameters.length → j < parameters.length → i ≠ j →
      -1 ≤ entryAt (generateFallbackCorrelationData parameters noise).matrix i j ∧
      entryAt (generateFallbackCorrelationData parameters noise).matrix i j ≤ 1) ∧
    (generateFallbackCorrelationData parameters noise).explanations =
      (pairList parameters.length).filterMap (fun p =>
        if |corrValue (parameters.map Prod.fst) noise p.1 p.2| > 3/10 then
          some { param1 := (parameters.map Prod.fst).getD p.1 [],
                 param2 := (parameters.map Prod.fst).getD p.2 [],
                 effect := corrEffect (parameters.map Prod.fst) p.1 p.2,
                 strength :=
                   if |corrValue (parameters.map Prod.fst) noise p.1 p.2| > 7/10 then
                     "high".data
                   else if |corrValue (parameters.map Prod.fst) noise p.1 p.2| > 1/2 then
                     "medium".data
                   else "low".data,
                 direction :=
                   if corrValue (parameters.map Prod.fst) noise p.1 p.2 > 0 then
                     "positive".data
                   else "negative".data }
        else none) := by
  have hnl : (parameters.map Prod.fst).length = parameters.length := by
    simp
  have hdiag := diag_fold parameters.length (List.range parameters.length)
    (List.replicate parameters.length (List.replicate parameters.length 0))
    (by simp) (by intro row hrow; rw [List.eq_of_mem_replicate hrow]; simp)
    (fun p hp => List.mem_range.mp hp)
  have hzero : ∀ a b,
      entryAt (List.replicate parameters.length
        (List.replicate parameters.length (0 : ℚ))) a b = 0 := by
    intro a b
    unfold entryAt
    rw [getD_replicate]
    by_cases h : a < parameters.length
    · rw [if_pos h, getD_replicate]
      by_cases h2 : b < parameters.length <;> simp [h2]
    · simp [h]
  have hdm : ∀ a b, entryAt (diagMatrix parameters.length) a b =
      if a = b ∧ a < parameters.length then 1 else 0 := by
    intro a b
    have h := hdiag.2.2 a b
    rw [diagMatrix, h, hzero]
    simp [List.mem_range]
  have hps : ∀ p ∈ pairList parameters.length,
      p.1 < parameters.length ∧ p.2 < parameters.length ∧ p.1 < p.2 := by
    intro p hp
    have := (mem_pairList parameters.length p).mp hp
    exact ⟨by omega, this.2, this.1⟩
  have hcorr := corr_fold (parameters.map Prod.fst) noise parameters.length
    (pairList parameters.length) (diagMatrix parameters.length) []
    hdiag.1 hdiag.2.1 hps
  have hmat : (generateFallbackCorrelationData parameters noise).matrix =
      ((pairList parameters.length).foldl
        (corrStep (parameters.map Prod.fst) noise)
        (diagMatrix parameters.length, [])).1 := by
    simp only [generateFallbackCorrelationData]
    rw [hnl]
  have hexp : (generateFallbackCorrelationData parameters noise).explanations =
      ((pairList parameters.length).foldl
        (corrStep (parameters.map Prod.fst) noise)
        (diagMatrix parameters.length, [])).2 := by
    simp only [generateFallbackCorrelationData]
    rw [hnl]
  have hchar : ∀ a b,
      entryAt (generateFallbackCorrelationData parameters noise).matrix a b =
      if (min a b, max a b) ∈ pairList parameters.length then
        corrValue (parameters.map Prod.fst) noise (min a b) (max a b)
      else if a = b ∧ a < parameters.length then 1 else 0 := by
    intro a b
    rw [hmat, hcorr.2.2.1 a b, hdm]
  refine ⟨?_, ?_, ?_, ?_, ?_, ?_⟩
  · rw [hmat]; exact hcorr.1
  · rw [hmat]; exact hcorr.2.1
  · intro i j
    rw [hchar i j, hchar j i, Nat.min_comm j i, Nat.max_comm j i]
    by_cases hij : i = j
    · subst hij; rfl
    · have h1 : ¬(i = j ∧ i < parameters.length) := by omega
      have h2 : ¬(j = i ∧ j < parameters.length) := by omega
      simp only [h1, h2, if_false]
  · intro i hi
    rw [hchar i i]
    have hnm : (min i i, max i i) ∉ pairList parameters.length := by
      intro hmem
      have := (mem_pairList parameters.length _).mp hmem
      simp at this
    rw [if_neg hnm, if_pos ⟨rfl, hi⟩]
  · intro i j hi hj hij
    rw [hchar i j]
    by_cases hmem : (min i j, max i j) ∈ pairList parameters.length
    · rw [if_pos hmem]
      exact corrValue_bounds (parameters.map Prod.fst) noise hn (min i j) (max i j)
    · rw [if_neg hmem]
      have h1 : ¬(i = j ∧ i < parameters.length) := by omega
      rw [if_neg h1]
      norm_num
  · rw [hexp, hcorr.2.2.2]
    rw [List.nil_append]
    rfl

unseal Rat.add Rat.inv Rat.mul Rat.sub in
/-- C8 witness at three concrete parameters and constant noise 0.1. -/
theorem C8_witness :
    (∀ i, i < ([("learning_rate".data, Json.null), ("batch_size".data, Json.null),
        ("x".data, Json.null)] : List (Str × Json)).length →
      entryAt (generateFallbackCorrelationData
        [("learning_rate".data, Json.null), ("batch_size".data, Json.null),
         ("x".data, Json.null)] (fun _ _ => 1/10)).matrix i i = 1) ∧
    (∀ i j, i < ([("learning_rate".data, Json.null), ("batch_size".data, Json.null),
        ("x".data, Json.null)] : List (Str × Json)).length →
      j < ([("learning_rate".data, Json.null), ("batch_size".data, Json.null),
        ("x".data, Json.null)] : List (Str × Json)).length → i ≠ j →
      -1 ≤ entryAt (generateFallbackCorrelationData
        [("learning_rate".data, Json.null), ("batch_size".data, Json.null),
         ("x".data, Json.null)] (fun _ _ => 1/10)).matrix i j ∧
      entryAt (generateFallbackCorrelationData
        [("learning_rate".data, Json.null), ("batch_size".data, Json.null),
         ("x".data, Json.null)] (fun _ _ => 1/10)).matrix i j ≤ 1) := by
  have h := C8_fallback_correlation_invariants
    [("learning_rate".data, Json.null), ("batch_size".data, Json.null),
     ("x".data, Json.null)] (fun _ _ => 1/10)
    (fun _ _ => by norm_num)
  exact ⟨h.2.2.2.1, h.2.2.2.2.1⟩
